import Mathlib

set_option maxHeartbeats 1000000

/-!
Verification development for the Relay device-placement planner
(file src/relay/transforms/device_planner.cc of the repository).

The planner is a four-phase pipeline over one module:
  Phase 0 (RewriteOnDevices), Phase 1 (DeviceAnalyzer),
  Phase 2 (DeviceDefaulter), Phase 3 (DeviceCapturer),
composed by PlanDevices.

The Relay expression IR, the four phases and the composed pass are
embedded from the source.  The DeviceDomains unification store and the
small "on_device" / "device_copy" operator helpers live in files of the
repository that are not part of the sources given here
(device_domains.cc, op/memory/on_device.cc, op/memory/device_copy.cc);
those parts are modelled from the specification and are marked
"Modelled from the spec" in their doc comments.

Modelling conventions:
  * SEScope values are natural numbers; the fully-unconstrained scope of
    the C++ is represented by Option.none where it can occur (function
    attributes and free domain leaves).  The compilation config carries
    the canonicalization function, the default primitive scope and the
    host scope.
  * Expression identity (pointer identity in the C++) is structural
    equality of the embedded terms.  Shared VarNode pointers of the C++
    correspond to structurally equal variable occurrences; other
    sub-terms are not duplicated in the concrete test modules, matching
    the pointer-distinctness of freshly built IR.
  * Checked types are not modelled; the higher-order skeleton that the
    C++ DomainFor builds from a function type is built here from
    function literals and, for callee positions, from the call arity.
  * Recursive walks over the union-find store take explicit fuel; the
    store is small and fuel is always passed as the number of allocated
    domains plus one, which bounds every chain of distinct roots.
  * Sequence types of the IR are embedded as the mutual list types
    ExprList, Clauses and PatternList so that structural recursion and
    decidable equality are available.
-/

namespace DevicePlanner

/-- Operator references of the Relay IR fragment the planner handles:
the two dialect operators of the pass plus the remaining primitive
operators, identified by a number. -/
inductive OpName where
  | onDeviceOp : OpName
  | deviceCopyOp : OpName
  | primOp : Nat → OpName
deriving DecidableEq, Repr

/-- Call attributes: OnDeviceAttrs (se_scope, is_fixed), DeviceCopyAttrs
(src_se_scope, dst_se_scope), or no attributes. -/
inductive CallAttrs where
  | noAttrs : CallAttrs
  | onDeviceAttrs : Nat → Bool → CallAttrs
  | deviceCopyAttrs : Nat → Nat → CallAttrs
deriving DecidableEq, Repr

/-- Function attributes: the Primitive flag, and the optional
"param_se_scopes" and "result_se_scope" attributes produced by the
planner (absent attributes read back as fully-unconstrained scopes in
the C++, hence the Option). -/
structure FuncAttrs where
  prim : Bool
  paramScopes : Option (List Nat)
  resultScope : Option Nat
deriving DecidableEq, Repr

mutual

/-- Patterns of Relay match clauses. -/
inductive Pattern where
  | pWild : Pattern
  | pVar : Nat → Pattern
  | pCtor : Nat → PatternList → Pattern
deriving DecidableEq, Repr

/-- Sequences of sub-patterns of a constructor pattern. -/
inductive PatternList where
  | nil : PatternList
  | cons : Pattern → PatternList → PatternList
deriving DecidableEq, Repr

end

mutual

/-- The Relay expression IR handled by the planner: variables, global
variables, constants, operators, ADT constructors, tuples, projections,
conditionals, lets, functions, calls, references and match. -/
inductive Expr where
  | var : Nat → Expr
  | gvar : Nat → Expr
  | const : Nat → Expr
  | opRef : OpName → Expr
  | ctorRef : Nat → Expr
  | tuple : ExprList → Expr
  | proj : Expr → Nat → Expr
  | ifE : Expr → Expr → Expr → Expr
  | letE : Nat → Expr → Expr → Expr
  | fnE : List Nat → Expr → FuncAttrs → Expr
  | callE : Expr → ExprList → CallAttrs → Expr
  | refCreate : Expr → Expr
  | refRead : Expr → Expr
  | refWrite : Expr → Expr → Expr
  | matchE : Expr → Clauses → Expr
deriving DecidableEq, Repr

/-- Sequences of expressions (tuple fields, call arguments). -/
inductive ExprList where
  | nil : ExprList
  | cons : Expr → ExprList → ExprList
deriving DecidableEq, Repr

/-- Sequences of match clauses (pattern and right-hand side). -/
inductive Clauses where
  | nil : Clauses
  | cons : Pattern → Expr → Clauses → Clauses
deriving DecidableEq, Repr

end

namespace ExprList

/-- Number of expressions in the sequence. -/
def length : ExprList → Nat
  | nil => 0
  | cons _ es => es.length + 1

end ExprList

namespace Expr

/-- Builds an "on_device" annotation call (the OnDevice helper of the
C++). -/
def onDev (body : Expr) (s : Nat) (fx : Bool) : Expr :=
  callE (opRef .onDeviceOp) (.cons body .nil) (.onDeviceAttrs s fx)

/-- Builds a "device_copy" call (the DeviceCopy helper of the C++). -/
def devCopy (body : Expr) (src dst : Nat) : Expr :=
  callE (opRef .deviceCopyOp) (.cons body .nil) (.deviceCopyAttrs src dst)

/-- GetOnDeviceProps: recognizes an "on_device" call and returns its
body, scope and is_fixed flag. -/
def onDeviceProps : Expr → Option (Expr × Nat × Bool)
  | callE (opRef .onDeviceOp) (.cons b .nil) (.onDeviceAttrs s fx) => some (b, s, fx)
  | _ => none

/-- GetDeviceCopyProps: recognizes a "device_copy" call and returns its
body, source scope and destination scope. -/
def deviceCopyProps : Expr → Option (Expr × Nat × Nat)
  | callE (opRef .deviceCopyOp) (.cons b .nil) (.deviceCopyAttrs src dst) => some (b, src, dst)
  | _ => none

end Expr

/-- Modules: global functions (in iteration order), plus the type
definitions, imports and source map that the IRModule carries along
(the latter three are opaque to the planner and modelled as plain
data). -/
structure Module where
  functions : List (Nat × Expr)
  typeDefs : List Nat
  imports : List Nat
  sourceMap : Nat
deriving DecidableEq, Repr

/-- Compilation configuration: scope canonicalization, the default
primitive scope and the host scope. -/
structure Config where
  canon : Nat → Nat
  defaultScope : Nat
  hostScope : Nat

/-!
## Phase 0: RewriteOnDevices

Embedded from RewriteOnDevices in the source.  The C++ unwinds let
chains iteratively to avoid stack exhaustion; the recursion below
computes the same expression.
-/

/-- Rewrites a value that has just been visited in let-value or
function-body position: a non-fixed "on_device" becomes fixed
(is_fixed=true) on its body. -/
def fixOnDevice (value : Expr) : Expr :=
  match value.onDeviceProps with
  | some (b, s, false) => Expr.onDev b s true
  | _ => value

mutual

/-- Phase 0 traversal (RewriteOnDevices::VisitExpr_ plus the default
ExprMutator cases). -/
def rwExpr : Expr → Expr
  | .var v => .var v
  | .gvar g => .gvar g
  | .const c => .const c
  | .opRef o => .opRef o
  | .ctorRef c => .ctorRef c
  | .tuple fs => .tuple (rwList fs)
  | .proj t i =>
      let t2 := rwExpr t
      let tgi := Expr.proj t2 i
      match t2.onDeviceProps with
      | some (_, s, false) => Expr.onDev tgi s false
      | _ => tgi
  | .ifE c t f => .ifE (rwExpr c) (rwExpr t) (rwExpr f)
  | .letE v value body => .letE v (fixOnDevice (rwExpr value)) (rwExpr body)
  | .fnE ps body attrs => .fnE ps (fixOnDevice (rwExpr body)) attrs
  | .callE op args attrs => .callE (rwExpr op) (rwList args) attrs
  | .refCreate v => .refCreate (rwExpr v)
  | .refRead r => .refRead (rwExpr r)
  | .refWrite r v => .refWrite (rwExpr r) (rwExpr v)
  | .matchE d cls => .matchE (rwExpr d) (rwClauses cls)

/-- Phase 0 on expression sequences. -/
def rwList : ExprList → ExprList
  | .nil => .nil
  | .cons e es => .cons (rwExpr e) (rwList es)

/-- Phase 0 on clause sequences (patterns are untouched). -/
def rwClauses : Clauses → Clauses
  | .nil => .nil
  | .cons p rhs cls => .cons p (rwExpr rhs) (rwClauses cls)

end

/-- The PlanDevicesRewrite function pass: Phase 0 applied to every
global function of the module. -/
def rwModule (m : Module) : Module :=
  { m with functions := m.functions.map (fun gf => (gf.1, rwExpr gf.2)) }

/-!
## The DeviceDomains unification store

Modelled from the spec: the store of device_domains.h / .cc is not among
the given sources, only its call sites in the planner are.  Per the
spec, a domain is either first-order (a scope value, possibly
unconstrained) or higher-order (parameter domains plus a result
domain), domains form a union-find forest, and every scope entering the
store is canonicalized by the compilation config.
-/

/-- Shape of a union-find node: a free first-order leaf, a constrained
first-order leaf, a higher-order shape over member domain ids, or a
forwarding link to another domain. -/
inductive DShape where
  | free : DShape
  | val : Nat → DShape
  | higher : List Nat → Nat → DShape
  | link : Nat → DShape
deriving DecidableEq, Repr

mutual

/-- Domain trees, used for reporting (the printed representation of a
domain in error messages) and for observational characterizations. -/
inductive Domain where
  | dFree : Domain
  | dVal : Nat → Domain
  | dHigher : DomainList → Domain → Domain
deriving DecidableEq, Repr

/-- Sequences of domain trees. -/
inductive DomainList where
  | nil : DomainList
  | cons : Domain → DomainList → DomainList
deriving DecidableEq, Repr

end

/-- Errors of the planner.  unifyConflict and arityMismatch are the
UnificationError of the store (caught by UnifyOrNull); the two Fatal
variants are the LOG(FATAL) diagnostics of the DeviceAnalyzer, carrying
the printed representations of both domains and the offending
sub-expression; invariantViolation stands for the ICHECK internal
invariant failures. -/
inductive PlanError where
  | unifyConflict : Nat → Nat → PlanError
  | arityMismatch : PlanError
  | callScopesFatal : Domain → Domain → Expr → PlanError
  | functionScopesFatal : Domain → Domain → Expr → PlanError
  | invariantViolation : PlanError
deriving DecidableEq, Repr

/-- The mutable state of DeviceDomains: the union-find nodes, the
expression-to-domain map and the callee-domain map
(call_to_callee_domain_). -/
structure Store where
  shapes : List DShape
  exprMap : List (Expr × Nat)
  calleeMap : List (Expr × Nat)
deriving DecidableEq, Repr

namespace Store

/-- The store of a freshly constructed DeviceDomains. -/
def empty : Store := ⟨[], [], []⟩

/-- Shape of a domain id (out-of-range ids read as free; they never
occur). -/
def shapeAt (st : Store) (d : Nat) : DShape := st.shapes.getD d .free

/-- Overwrites the shape of a domain id. -/
def setShape (st : Store) (d : Nat) (sh : DShape) : Store :=
  { st with shapes := st.shapes.set d sh }

/-- Allocates a fresh domain with the given shape. -/
def alloc (st : Store) (sh : DShape) : Nat × Store :=
  (st.shapes.length, { st with shapes := st.shapes ++ [sh] })

/-- Fuel bound for the recursive store walks: every chain of distinct
roots, and every alternation of higher-order members and member-list
positions, is covered by twice the number of allocated domains. -/
def fuel (st : Store) : Nat := 2 * st.shapes.length + 2

/-- Follows forwarding links for at most the given number of steps. -/
def findN (st : Store) : Nat → Nat → Nat
  | 0, d => d
  | n + 1, d =>
      match st.shapeAt d with
      | .link t => st.findN n t
      | _ => d

/-- Representative of a domain (Lookup of the C++, modulo the path
compression performance optimization, which does not change
representatives). -/
def find (st : Store) (d : Nat) : Nat := st.findN st.fuel d

end Store

mutual

/-- Reads the domain tree rooted at a domain id out of the store
(the ToString representation of a domain). -/
def extract (st : Store) : Nat → Nat → Domain
  | 0, _ => .dFree
  | n + 1, d =>
      match st.shapeAt (st.find d) with
      | .free => .dFree
      | .val s => .dVal s
      | .higher ps r => .dHigher (extractList st n ps) (extract st n r)
      | .link _ => .dFree

/-- Reads a sequence of domain trees out of the store. -/
def extractList (st : Store) : Nat → List Nat → DomainList
  | 0, _ => .nil
  | _ + 1, [] => .nil
  | n + 1, p :: ps => .cons (extract st n p) (extractList st n ps)

end

/-- Domain tree of a domain id, with the default fuel. -/
def extractD (st : Store) (d : Nat) : Domain := extract st st.fuel d

mutual

/-- IsFullyConstrained: every leaf reachable from the domain carries a
constrained scope. -/
def isFullyC (st : Store) : Nat → Nat → Bool
  | 0, _ => false
  | n + 1, d =>
      match st.shapeAt (st.find d) with
      | .free => false
      | .val _ => true
      | .higher ps r => isFullyCList st n ps && isFullyC st n r
      | .link _ => false

/-- IsFullyConstrained over a sequence of member domains. -/
def isFullyCList (st : Store) : Nat → List Nat → Bool
  | 0, _ => false
  | _ + 1, [] => true
  | n + 1, p :: ps => isFullyC st n p && isFullyCList st n ps

end

/-- ResultSEScope: the scope of the result leaf of a domain, descending
through higher-order domains along the result position.  Fails the
ICHECK (invariantViolation) if the leaf is still unconstrained. -/
def resultScopeN (st : Store) : Nat → Nat → Except PlanError Nat
  | 0, _ => .error .invariantViolation
  | n + 1, d =>
      match st.shapeAt (st.find d) with
      | .val s => .ok s
      | .higher _ r => resultScopeN st n r
      | _ => .error .invariantViolation

/-- ResultSEScope with the default fuel. -/
def resultScope (st : Store) (d : Nat) : Except PlanError Nat :=
  resultScopeN st st.fuel d

mutual

/-- SetDefault: default-fills every unconstrained leaf of the domain
with the (canonicalized) scope. -/
def setDefaultN (cfg : Config) : Nat → Nat → Store → Nat → Store
  | 0, _, st, _ => st
  | n + 1, s, st, d =>
      let r := st.find d
      match st.shapeAt r with
      | .free => st.setShape r (.val (cfg.canon s))
      | .val _ => st
      | .higher ps res => setDefaultN cfg n s (setDefaultList cfg n s st ps) res
      | .link _ => st

/-- SetDefault over a sequence of member domains. -/
def setDefaultList (cfg : Config) : Nat → Nat → Store → List Nat → Store
  | 0, _, st, _ => st
  | _ + 1, _, st, [] => st
  | n + 1, s, st, p :: ps => setDefaultList cfg n s (setDefaultN cfg n s st p) ps

end

/-- SetDefault with the default fuel. -/
def setDefault (cfg : Config) (s : Nat) (st : Store) (d : Nat) : Store :=
  setDefaultN cfg st.fuel s st d

/-- SetResultDefaultThenParams: for a first-order domain, SetDefault;
for a higher-order domain, first default the result position
(recursively), then default every parameter position to the
now-constrained result scope. -/
def setRDTPN (cfg : Config) : Nat → Nat → Store → Nat → Except PlanError Store
  | 0, _, _, _ => .error .invariantViolation
  | n + 1, s, st, d =>
      let r := st.find d
      match st.shapeAt r with
      | .higher ps res =>
          match setRDTPN cfg n s st res with
          | .error e => .error e
          | .ok st1 =>
              match resultScope st1 res with
              | .error e => .error e
              | .ok sres => .ok (setDefaultList cfg st1.fuel sres st1 ps)
      | _ => .ok (setDefault cfg s st d)

/-- SetResultDefaultThenParams with the default fuel. -/
def setRDTP (cfg : Config) (s : Nat) (st : Store) (d : Nat) :
    Except PlanError Store :=
  setRDTPN cfg st.fuel s st d

mutual

/-- UnifyExprExact on domain ids: merges representatives; fails with a
UnificationError if two differing fully-constrained first-order scopes
meet, or if two higher-order domains have different arities; merges
higher-order payloads recursively and then forwards one root to the
other. -/
def unifyN (cfg : Config) : Nat → Nat → Nat → Store → Except PlanError Store
  | 0, _, _, _ => .error .invariantViolation
  | n + 1, a, b, st =>
      let ra := st.find a
      let rb := st.find b
      if ra = rb then .ok st
      else
        match st.shapeAt ra, st.shapeAt rb with
        | .free, _ => .ok (st.setShape ra (.link rb))
        | _, .free => .ok (st.setShape rb (.link ra))
        | .val s, .val t =>
            if s = t then .ok (st.setShape ra (.link rb))
            else .error (.unifyConflict s t)
        | .higher ps r, .higher qs t =>
            if ps.length = qs.length then
              match unifyPairsN cfg n ps qs st with
              | .error e => .error e
              | .ok st1 =>
                  match unifyN cfg n r t st1 with
                  | .error e => .error e
                  | .ok st2 => .ok (st2.setShape ra (.link rb))
            else .error .arityMismatch
        | _, _ => .error .arityMismatch

/-- Pairwise unification of higher-order member domains. -/
def unifyPairsN (cfg : Config) : Nat → List Nat → List Nat → Store →
    Except PlanError Store
  | 0, _, _, _ => .error .invariantViolation
  | _ + 1, [], _, st => .ok st
  | _ + 1, _ :: _, [], st => .ok st
  | n + 1, p :: ps, q :: qs, st =>
      match unifyN cfg n p q st with
      | .error e => .error e
      | .ok st1 => unifyPairsN cfg n ps qs st1

end

/-- Unification with the default fuel. -/
def unifyIds (cfg : Config) (a b : Nat) (st : Store) :
    Except PlanError Store :=
  unifyN cfg st.fuel a b st

/-- Collapse: if the domain is higher-order, unify every parameter and
the result with a single shared fresh first-order variable and return
that variable; first-order domains are returned unchanged. -/
def collapse (cfg : Config) (d : Nat) (st : Store) :
    Except PlanError (Nat × Store) :=
  match st.shapeAt (st.find d) with
  | .higher ps res =>
      let fst1 := st.alloc .free
      let f := fst1.1
      match (ps ++ [res]).foldlM (fun stx p => unifyIds cfg f p stx) fst1.2 with
      | .error e => .error e
      | .ok st2 => .ok (f, st2)
  | _ => .ok (d, st)

/-- UnifyCollapsed on domain ids: collapse either higher-order side,
then unify. -/
def unifyCollapsedIds (cfg : Config) (a b : Nat) (st : Store) :
    Except PlanError Store :=
  match collapse cfg a st with
  | .error e => .error e
  | .ok cast1 =>
      match collapse cfg b cast1.2 with
      | .error e => .error e
      | .ok cbst2 => unifyIds cfg cast1.1 cbst2.1 cbst2.2

/-- UnifyOrNull: tries to unify, turning a UnificationError into none;
internal invariant failures still propagate. -/
def unifyOrNull (cfg : Config) (a b : Nat) (st : Store) :
    Except PlanError (Option Store) :=
  match unifyIds cfg a b st with
  | .ok st1 => .ok (some st1)
  | .error (.unifyConflict _ _) => .ok none
  | .error .arityMismatch => .ok none
  | .error e => .error e

/-- Association lookup in the expression-to-domain maps (pointer
identity of the C++ is structural identity here). -/
def lookupDom : List (Expr × Nat) → Expr → Option Nat
  | [], _ => none
  | (k, v) :: rest, e => if k = e then some v else lookupDom rest e

/-- Allocates the given number of fresh free first-order domains. -/
def allocFrees : Nat → Store → List Nat × Store
  | 0, st => ([], st)
  | n + 1, st =>
      let dst1 := st.alloc .free
      let rest := allocFrees n dst1.2
      (dst1.1 :: rest.1, rest.2)

/-- MakeHigherOrderDomain from existing member domains. -/
def makeHO (ps : List Nat) (r : Nat) (st : Store) : Nat × Store :=
  st.alloc (.higher ps r)

/-- ForSEScope on a first-order type: a fresh domain whose leaf is
pre-constrained to the given scope (free when the scope is the
fully-unconstrained one).  Types are not modelled, so the higher-order
case of the C++ ForSEScope is not needed; it is only reached for
function-typed parameters of annotated functions. -/
def forSEScope (cfg : Config) (s : Option Nat) (st : Store) : Nat × Store :=
  match s with
  | none => st.alloc .free
  | some v => st.alloc (.val (cfg.canon v))

/-- Arity of a higher-order domain (function_arity of the C++). -/
def arityOf (st : Store) (d : Nat) : Option Nat :=
  match st.shapeAt (st.find d) with
  | .higher ps _ => some ps.length
  | _ => none

/-- Parameter member of a higher-order domain (function_param). -/
def funcParamAt (st : Store) (d i : Nat) : Except PlanError Nat :=
  match st.shapeAt (st.find d) with
  | .higher ps _ =>
      match ps.get? i with
      | some p => .ok p
      | none => .error .invariantViolation
  | _ => .error .invariantViolation

/-- All parameter members of a higher-order domain. -/
def funcParams (st : Store) (d : Nat) : Except PlanError (List Nat) :=
  match st.shapeAt (st.find d) with
  | .higher ps _ => .ok ps
  | _ => .error .invariantViolation

/-- Result member of a higher-order domain (function_result). -/
def funcResultOf (st : Store) (d : Nat) : Except PlanError Nat :=
  match st.shapeAt (st.find d) with
  | .higher _ r => .ok r
  | _ => .error .invariantViolation

/-- DomainFor: returns the domain bound to the expression, allocating a
fresh one on first call.  A function literal receives a matching
higher-order skeleton (the C++ builds it from the function type); every
other expression receives a free first-order domain. -/
def domainFor (e : Expr) (st : Store) : Nat × Store :=
  match lookupDom st.exprMap e with
  | some d => (d, st)
  | none =>
      match e with
      | .fnE ps _ _ =>
          let a := allocFrees ps.length st
          let b := a.2.alloc .free
          let c := b.2.alloc (.higher a.1 b.1)
          (c.1, { c.2 with exprMap := (e, c.1) :: c.2.exprMap })
      | _ =>
          let a := st.alloc .free
          (a.1, { a.2 with exprMap := (e, a.1) :: a.2.exprMap })

/-- DomainForCallee: the domain for the operator position of a call.
A primitive operator or ADT constructor receives a fresh higher-order
domain whose parameters and result are all the same first-order domain
(device polymorphic and homogeneous).  The two dialect operators have
bespoke shapes: "on_device" pins its argument (and, when is_fixed, its
result) to its annotation scope; "device_copy" pins its argument to the
src scope and its result to the dst scope.  Any other operator
expression gets its ordinary DomainFor domain; a still-free domain is
grown into a higher-order skeleton of the call arity (the C++ builds
the skeleton from the operator function type).  The special shapes are
memoized per call (call_to_callee_domain_).

Modelled from the spec where the store sources are missing: the bespoke
shapes for the shape and memory primitives (shape_of, shape_func,
reshape_tensor, alloc_storage, alloc_tensor) pin their shape-typed
positions to the host scope; since types are not modelled those five
behave here like ordinary primitives, and no claim depends on them. -/
def domainForCallee (cfg : Config) (call : Expr) (st : Store) :
    Except PlanError (Nat × Store) :=
  match lookupDom st.calleeMap call with
  | some d => .ok (d, st)
  | none =>
      match call with
      | .callE (.opRef .onDeviceOp) (.cons _ .nil) (.onDeviceAttrs s fx) =>
          let a := st.alloc (.val (cfg.canon s))
          let b := if fx then a.2.alloc (.val (cfg.canon s)) else a.2.alloc .free
          let c := b.2.alloc (.higher [a.1] b.1)
          .ok (c.1, { c.2 with calleeMap := (call, c.1) :: c.2.calleeMap })
      | .callE (.opRef .onDeviceOp) _ _ => .error .invariantViolation
      | .callE (.opRef .deviceCopyOp) (.cons _ .nil) (.deviceCopyAttrs src dst) =>
          let a := st.alloc (.val (cfg.canon src))
          let b := a.2.alloc (.val (cfg.canon dst))
          let c := b.2.alloc (.higher [a.1] b.1)
          .ok (c.1, { c.2 with calleeMap := (call, c.1) :: c.2.calleeMap })
      | .callE (.opRef .deviceCopyOp) _ _ => .error .invariantViolation
      | .callE (.opRef (.primOp _)) args _ =>
          let a := st.alloc .free
          let b := a.2.alloc (.higher (List.replicate args.length a.1) a.1)
          .ok (b.1, { b.2 with calleeMap := (call, b.1) :: b.2.calleeMap })
      | .callE (.ctorRef _) args _ =>
          let a := st.alloc .free
          let b := a.2.alloc (.higher (List.replicate args.length a.1) a.1)
          .ok (b.1, { b.2 with calleeMap := (call, b.1) :: b.2.calleeMap })
      | .callE op args _ =>
          let a := domainFor op st
          match (a.2).shapeAt ((a.2).find a.1) with
          | .free =>
              let b := allocFrees args.length a.2
              let c := b.2.alloc .free
              let d := c.2.alloc (.higher b.1 c.1)
              .ok (d.1, (d.2).setShape ((d.2).find a.1) (.link d.1))
          | _ => .ok (a.1, a.2)
      | _ => .error .invariantViolation

/-- UnifyExprExact on two expressions. -/
def unifyExprExact (cfg : Config) (a b : Expr) (st : Store) :
    Except PlanError Store :=
  let da := domainFor a st
  let db := domainFor b da.2
  unifyIds cfg da.1 db.1 db.2

/-- UnifyExprExact of an expression against an existing domain. -/
def unifyExprDomain (cfg : Config) (e : Expr) (d : Nat) (st : Store) :
    Except PlanError Store :=
  let de := domainFor e st
  unifyIds cfg de.1 d de.2

/-- UnifyExprCollapsed of an expression against an existing domain. -/
def unifyExprDomainCollapsed (cfg : Config) (e : Expr) (d : Nat) (st : Store) :
    Except PlanError Store :=
  let de := domainFor e st
  unifyCollapsedIds cfg de.1 d de.2

mutual

/-- Variables bound by a pattern (visited by DevicePatternAnalyzer). -/
def patVars : Pattern → List Nat
  | .pWild => []
  | .pVar v => [v]
  | .pCtor _ ps => patVarsList ps

/-- Variables bound by a sequence of patterns. -/
def patVarsList : PatternList → List Nat
  | .nil => []
  | .cons p ps => patVars p ++ patVarsList ps

end

/-- The pattern-variable loop of DevicePatternAnalyzer: each pattern
variable is collapse-unified with the scrutinee. -/
def visitAPatVars (cfg : Config) (data : Expr) : List Nat → Store →
    Except PlanError Store
  | [], st => .ok st
  | v :: vs, st =>
      let d := domainFor (.var v) st
      match unifyExprDomainCollapsed cfg data d.1 d.2 with
      | .error e => .error e
      | .ok st1 => visitAPatVars cfg data vs st1

/-- GetFunctionParamSEScope for every parameter index: the attribute
scope when present, the fully-unconstrained scope otherwise. -/
def paramScopesOf (attrs : FuncAttrs) (n : Nat) : List (Option Nat) :=
  (List.range n).map (fun i =>
    match attrs.paramScopes with
    | none => none
    | some ss => ss.get? i)

/-- ForSEScope over the attribute parameter scopes. -/
def allocAnnParams (cfg : Config) : List (Option Nat) → Store →
    List Nat × Store
  | [], st => ([], st)
  | s :: ss, st =>
      let a := forSEScope cfg s st
      let rest := allocAnnParams cfg ss a.2
      (a.1 :: rest.1, rest.2)

/-- The parameter loop of the FunctionNode handler (VisitExpr on a
parameter variable is its DomainFor). -/
def visitAParams (cfg : Config) : List Nat → List Nat → Store →
    Except PlanError Store
  | [], _, st => .ok st
  | _ :: _, [], _ => .error .invariantViolation
  | p :: ps, pd :: pds, st =>
      match unifyExprDomain cfg (.var p) pd st with
      | .error e => .error e
      | .ok st1 => visitAParams cfg ps pds (domainFor (.var p) st1).2

/-- The "param_se_scopes" / "result_se_scope" attribute constraint of
the FunctionNode handler: when the function result attribute scope is
not fully unconstrained, the function domain is further unified with a
domain built from the attributes. -/
def visitAFnAttrs (cfg : Config) (ps : List Nat) (body : Expr)
    (attrs : FuncAttrs) (fd : Nat) (st : Store) : Except PlanError Store :=
  match attrs.resultScope with
  | none => .ok st
  | some rs =>
      let annPs := allocAnnParams cfg (paramScopesOf attrs ps.length) st
      let annR := annPs.2.alloc (.val (cfg.canon rs))
      let ann := makeHO annPs.1 annR.1 annR.2
      match unifyOrNull cfg fd ann.1 ann.2 with
      | .error e => .error e
      | .ok (some st1) => .ok st1
      | .ok none =>
          .error (.functionScopesFatal (extractD ann.2 fd)
            (extractD ann.2 ann.1) (.fnE ps body attrs))

/-!
## Phase 1: DeviceAnalyzer

Embedded from DeviceAnalyzer in the source.  VisitExpr on variables,
global variables and constants only allocates their domain, so those
recursive visits are inlined as DomainFor below.  The traversal takes
explicit fuel (decremented on every call) so that it is structurally
recursive and computable by the kernel; visitA below supplies fuel that
always suffices for the syntactic depth of the expression, so the
fuel-exhaustion error is never reached.
-/

mutual

/-- DeviceAnalyzer::VisitExpr_, by syntactic form, in source order. -/
def visitAN (cfg : Config) : Nat → Expr → Store → Except PlanError Store
  | 0, _, _ => .error .invariantViolation
  | _ + 1, .var v, st => .ok (domainFor (.var v) st).2
  | _ + 1, .gvar g, st => .ok (domainFor (.gvar g) st).2
  | _ + 1, .const c, st => .ok (domainFor (.const c) st).2
  | _ + 1, .opRef _, st => .ok st
  | _ + 1, .ctorRef _, st => .ok st
  | n + 1, .tuple fs, st => visitATupleFieldsN cfg n (.tuple fs) fs st
  | n + 1, .proj t i, st =>
      let d := domainFor (.proj t i) st
      match unifyExprDomainCollapsed cfg t d.1 d.2 with
      | .error e => .error e
      | .ok st1 => visitAN cfg n t st1
  | n + 1, .ifE c t f, st =>
      let d := domainFor (.ifE c t f) st
      match unifyExprDomainCollapsed cfg c d.1 d.2 with
      | .error e => .error e
      | .ok st1 =>
          match unifyExprDomain cfg t d.1 st1 with
          | .error e => .error e
          | .ok st2 =>
              match unifyExprDomain cfg f d.1 st2 with
              | .error e => .error e
              | .ok st3 =>
                  match visitAN cfg n c st3 with
                  | .error e => .error e
                  | .ok st4 =>
                      match visitAN cfg n t st4 with
                      | .error e => .error e
                      | .ok st5 => visitAN cfg n f st5
  | n + 1, .letE v value body, st =>
      match unifyExprExact cfg (.var v) value st with
      | .error e => .error e
      | .ok st1 =>
          match unifyExprExact cfg (.letE v value body) body st1 with
          | .error e => .error e
          | .ok st2 =>
              let st3 := (domainFor (.var v) st2).2
              match visitAN cfg n value st3 with
              | .error e => .error e
              | .ok st4 => visitAN cfg n body st4
  | n + 1, .fnE ps body attrs, st =>
      if attrs.prim then .ok st
      else
        let fd := domainFor (.fnE ps body attrs) st
        match funcResultOf fd.2 fd.1 with
        | .error e => .error e
        | .ok rd =>
            match unifyExprDomain cfg body rd fd.2 with
            | .error e => .error e
            | .ok st1 =>
                match funcParams st1 fd.1 with
                | .error e => .error e
                | .ok pds =>
                    if ps.length = pds.length then
                      match visitAParams cfg ps pds st1 with
                      | .error e => .error e
                      | .ok st2 =>
                          match visitAFnAttrs cfg ps body attrs fd.1 st2 with
                          | .error e => .error e
                          | .ok st3 => visitAN cfg n body st3
                    else .error .invariantViolation
  | n + 1, .callE op args attrs, st =>
      match visitAN cfg n op st with
      | .error e => .error e
      | .ok st0 =>
          match domainForCallee cfg (.callE op args attrs) st0 with
          | .error e => .error e
          | .ok fd =>
              if arityOf fd.2 fd.1 = some args.length then
                match visitAArgsN cfg n args fd.2 with
                | .error e => .error e
                | .ok dsst =>
                    let dres := domainFor (.callE op args attrs) dsst.2
                    let implied := makeHO dsst.1 dres.1 dres.2
                    match unifyOrNull cfg fd.1 implied.1 implied.2 with
                    | .error e => .error e
                    | .ok (some st2) => .ok st2
                    | .ok none =>
                        .error (.callScopesFatal (extractD implied.2 fd.1)
                          (extractD implied.2 implied.1) (.callE op args attrs))
              else .error .invariantViolation
  | n + 1, .refCreate v, st =>
      let d := domainFor v st
      match unifyExprDomainCollapsed cfg (.refCreate v) d.1 d.2 with
      | .error e => .error e
      | .ok st1 => visitAN cfg n v st1
  | n + 1, .refRead r, st =>
      let d := domainFor (.refRead r) st
      match unifyExprDomainCollapsed cfg r d.1 d.2 with
      | .error e => .error e
      | .ok st1 => visitAN cfg n r st1
  | n + 1, .refWrite r v, st =>
      let d := domainFor v st
      match unifyExprDomainCollapsed cfg r d.1 d.2 with
      | .error e => .error e
      | .ok st1 =>
          match unifyExprDomainCollapsed cfg (.refWrite r v) d.1 st1 with
          | .error e => .error e
          | .ok st2 =>
              match visitAN cfg n r st2 with
              | .error e => .error e
              | .ok st3 => visitAN cfg n v st3
  | n + 1, .matchE data cls, st =>
      let md := domainFor (.matchE data cls) st
      match unifyExprDomainCollapsed cfg data md.1 md.2 with
      | .error e => .error e
      | .ok st1 =>
          match visitAClausesN cfg n data md.1 cls st1 with
          | .error e => .error e
          | .ok st2 => visitAN cfg n data st2

/-- The per-field loop of the TupleNode handler. -/
def visitATupleFieldsN (cfg : Config) : Nat → Expr → ExprList → Store →
    Except PlanError Store
  | 0, _, _, _ => .error .invariantViolation
  | _ + 1, _, .nil, st => .ok st
  | n + 1, tup, .cons f fs, st =>
      let d := domainFor f st
      match unifyExprDomainCollapsed cfg tup d.1 d.2 with
      | .error e => .error e
      | .ok st1 =>
          match visitAN cfg n f st1 with
          | .error e => .error e
          | .ok st2 => visitATupleFieldsN cfg n tup fs st2

/-- The argument loop of the CallNode handler: DomainFor then VisitExpr
on each argument, collecting the argument domains in order. -/
def visitAArgsN (cfg : Config) : Nat → ExprList → Store →
    Except PlanError (List Nat × Store)
  | 0, _, _ => .error .invariantViolation
  | _ + 1, .nil, st => .ok ([], st)
  | n + 1, .cons a as, st =>
      let d := domainFor a st
      match visitAN cfg n a d.2 with
      | .error e => .error e
      | .ok st1 =>
          match visitAArgsN cfg n as st1 with
          | .error e => .error e
          | .ok dsst => .ok (d.1 :: dsst.1, dsst.2)

/-- The clause loop of the MatchNode handler: pattern variables are
collapse-unified with the scrutinee, each right-hand side is unified
exactly with the match domain and then visited. -/
def visitAClausesN (cfg : Config) : Nat → Expr → Nat → Clauses → Store →
    Except PlanError Store
  | 0, _, _, _, _ => .error .invariantViolation
  | _ + 1, _, _, .nil, st => .ok st
  | n + 1, data, md, .cons p rhs cls, st =>
      match visitAPatVars cfg data (patVars p) st with
      | .error e => .error e
      | .ok st1 =>
          match unifyExprDomain cfg rhs md st1 with
          | .error e => .error e
          | .ok st2 =>
              match visitAN cfg n rhs st2 with
              | .error e => .error e
              | .ok st3 => visitAClausesN cfg n data md cls st3

end

/-!
Computable size of an expression: the derived SizeOf instances of the
mutual group have no executable code, and the fuelled traversals need a
computable bound.
-/

mutual

/-- Size of an expression. -/
def esize : Expr → Nat
  | .var _ => 1
  | .gvar _ => 1
  | .const _ => 1
  | .opRef _ => 1
  | .ctorRef _ => 1
  | .tuple fs => esizeList fs + 1
  | .proj t _ => esize t + 1
  | .ifE c t f => esize c + esize t + esize f + 1
  | .letE _ value body => esize value + esize body + 1
  | .fnE _ body _ => esize body + 1
  | .callE op args _ => esize op + esizeList args + 1
  | .refCreate v => esize v + 1
  | .refRead r => esize r + 1
  | .refWrite r v => esize r + esize v + 1
  | .matchE d cls => esize d + esizeClauses cls + 1

/-- Size of an expression sequence. -/
def esizeList : ExprList → Nat
  | .nil => 1
  | .cons e es => esize e + esizeList es + 1

/-- Size of a clause sequence. -/
def esizeClauses : Clauses → Nat
  | .nil => 1
  | .cons _ rhs cls => esize rhs + esizeClauses cls + 1

end

/-- Fuel that always suffices for the fuelled traversals: every
recursive call either descends into a strict sub-term or switches
traversal mode a bounded number of times per node. -/
def exprFuel (e : Expr) : Nat := 4 * esize e + 4

/-- DeviceAnalyzer::VisitExpr with adequate fuel. -/
def visitA (cfg : Config) (e : Expr) (st : Store) : Except PlanError Store :=
  visitAN cfg (exprFuel e) e st

/-- DeviceAnalyzer::Analyze: unify each global variable with its
definition, then visit the definition, in module order. -/
def analyzeFns (cfg : Config) : List (Nat × Expr) → Store →
    Except PlanError Store
  | [], st => .ok st
  | (g, fn) :: rest, st =>
      match unifyExprExact cfg (.gvar g) fn st with
      | .error e => .error e
      | .ok st1 =>
          match visitA cfg fn st1 with
          | .error e => .error e
          | .ok st2 => analyzeFns cfg rest st2

/-- Phase 1 over a module. -/
def analyzeModule (cfg : Config) (m : Module) (st : Store) :
    Except PlanError Store :=
  analyzeFns cfg m.functions st

/-- IsFullyConstrained with the default fuel. -/
def isFully (st : Store) (d : Nat) : Bool := isFullyC st st.fuel d

/-!
## Phase 2: DeviceDefaulter

Embedded from DeviceDefaulter in the source, together with the default
ExprVisitor recursion for the unhandled forms, with fuel as in Phase 1.
-/

mutual

/-- DeviceDefaulter::VisitExpr_, by syntactic form.  Functions and
callees that are not fully constrained receive
SetResultDefaultThenParams with the default primitive scope; a
let-bound variable that is not fully constrained receives SetDefault
with the result scope of the overall let. -/
def visitDN (cfg : Config) : Nat → Expr → Store → Except PlanError Store
  | 0, _, _ => .error .invariantViolation
  | _ + 1, .var _, st => .ok st
  | _ + 1, .gvar _, st => .ok st
  | _ + 1, .const _, st => .ok st
  | _ + 1, .opRef _, st => .ok st
  | _ + 1, .ctorRef _, st => .ok st
  | n + 1, .tuple fs, st => visitDListN cfg n fs st
  | n + 1, .proj t _, st => visitDN cfg n t st
  | n + 1, .ifE c t f, st =>
      match visitDN cfg n c st with
      | .error e => .error e
      | .ok st1 =>
          match visitDN cfg n t st1 with
          | .error e => .error e
          | .ok st2 => visitDN cfg n f st2
  | n + 1, .letE v value body, st =>
      let ld := domainFor (.letE v value body) st
      match resultScope ld.2 ld.1 with
      | .error e => .error e
      | .ok s =>
          let vd := domainFor (.var v) ld.2
          let st2 := if isFully vd.2 vd.1 then vd.2 else setDefault cfg s vd.2 vd.1
          match visitDN cfg n value st2 with
          | .error e => .error e
          | .ok st3 => visitDN cfg n body st3
  | n + 1, .fnE ps body attrs, st =>
      if attrs.prim then .ok st
      else
        let fd := domainFor (.fnE ps body attrs) st
        if arityOf fd.2 fd.1 = some ps.length then
          match (if isFully fd.2 fd.1 then Except.ok fd.2
                 else setRDTP cfg cfg.defaultScope fd.2 fd.1) with
          | .error e => .error e
          | .ok st2 => visitDN cfg n body st2
        else .error .invariantViolation
  | n + 1, .callE op args attrs, st =>
      match domainForCallee cfg (.callE op args attrs) st with
      | .error e => .error e
      | .ok fd =>
          if arityOf fd.2 fd.1 = some args.length then
            match (if isFully fd.2 fd.1 then Except.ok fd.2
                   else setRDTP cfg cfg.defaultScope fd.2 fd.1) with
            | .error e => .error e
            | .ok st2 =>
                match visitDN cfg n op st2 with
                | .error e => .error e
                | .ok st3 => visitDListN cfg n args st3
          else .error .invariantViolation
  | n + 1, .refCreate v, st => visitDN cfg n v st
  | n + 1, .refRead r, st => visitDN cfg n r st
  | n + 1, .refWrite r v, st =>
      match visitDN cfg n r st with
      | .error e => .error e
      | .ok st1 => visitDN cfg n v st1
  | n + 1, .matchE data cls, st =>
      match visitDN cfg n data st with
      | .error e => .error e
      | .ok st1 => visitDClausesN cfg n cls st1

/-- Default visitor recursion over expression sequences. -/
def visitDListN (cfg : Config) : Nat → ExprList → Store →
    Except PlanError Store
  | 0, _, _ => .error .invariantViolation
  | _ + 1, .nil, st => .ok st
  | n + 1, .cons e es, st =>
      match visitDN cfg n e st with
      | .error er => .error er
      | .ok st1 => visitDListN cfg n es st1

/-- Default visitor recursion over clause right-hand sides. -/
def visitDClausesN (cfg : Config) : Nat → Clauses → Store →
    Except PlanError Store
  | 0, _, _ => .error .invariantViolation
  | _ + 1, .nil, st => .ok st
  | n + 1, .cons _ rhs cls, st =>
      match visitDN cfg n rhs st with
      | .error e => .error e
      | .ok st1 => visitDClausesN cfg n cls st1

end

/-- DeviceDefaulter::VisitExpr with adequate fuel. -/
def visitD (cfg : Config) (e : Expr) (st : Store) : Except PlanError Store :=
  visitDN cfg (exprFuel e) e st

/-- DeviceDefaulter::Default over the module functions. -/
def defaultFns (cfg : Config) : List (Nat × Expr) → Store →
    Except PlanError Store
  | [], st => .ok st
  | (_, fn) :: rest, st =>
      match visitD cfg fn st with
      | .error e => .error e
      | .ok st1 => defaultFns cfg rest st1

/-- Phase 2 over a module. -/
def defaultModule (cfg : Config) (m : Module) (st : Store) :
    Except PlanError Store :=
  defaultFns cfg m.functions st

/-!
## Phase 3: DeviceCapturer
-/

/-- MaybeOnDevice.  Modelled from the spec: the helper lives in
op/memory/on_device.cc, which is not among the given sources.  Per the
spec an "on_device" never wraps a variable or global variable (their
scope is tracked through their binding), and primitive operators and
ADT constructors are device polymorphic, so those are returned bare;
anything else is wrapped in an "on_device" annotation. -/
def maybeOnDevice (body : Expr) (s : Nat) (fx : Bool) : Expr :=
  match body with
  | .var v => .var v
  | .gvar g => .gvar g
  | .opRef o => .opRef o
  | .ctorRef c => .ctorRef c
  | _ => Expr.onDev body s fx

/-- DeviceCapturer::GetSEScope: looks through one "on_device" wrapper,
checks the expression is known to the domain map, and reads the
representative result scope (ICHECK failures are invariantViolation
errors). -/
def getSEScope (st : Store) (e : Expr) : Except PlanError Nat :=
  let core := match e.onDeviceProps with
              | some bsf => bsf.1
              | none => e
  match lookupDom st.exprMap core with
  | none => .error .invariantViolation
  | some d => resultScope st d

/-- Is the expression a let binding (the let-chain continuation test of
the capture walk). -/
def isLet : Expr → Bool
  | .letE _ _ _ => true
  | _ => false

/-- ResultSEScope of each callee parameter domain (the param_se_scopes
attribute values). -/
def paramScopeList (st : Store) : List Nat → Except PlanError (List Nat)
  | [] => .ok []
  | pd :: pds =>
      match resultScope st pd with
      | .error e => .error e
      | .ok s =>
          match paramScopeList st pds with
          | .error e => .error e
          | .ok ss => .ok (s :: ss)

mutual

/-- DeviceCapturer::VisitExpr_, by syntactic form, with fuel as in the
other phases.  The let case is the C++ iterative chain walk written as
a recursion: a chained inner let with the same scope is continued
directly (which re-enters this case with the same lexical scope), and a
chained inner let with a different scope, or a non-let body, is rebuilt
through VisitChild exactly as at the loop exit of the C++.  The
"on_device" and "device_copy" dialect calls are matched syntactically
(GetOnDeviceProps and GetDeviceCopyProps of the C++). -/
def captureN (cfg : Config) : Nat → Expr → Store →
    Except PlanError (Expr × Store)
  | 0, _, _ => .error .invariantViolation
  | _ + 1, .var v, st => .ok (.var v, st)
  | _ + 1, .gvar g, st => .ok (.gvar g, st)
  | _ + 1, .const c, st => .ok (.const c, st)
  | _ + 1, .opRef o, st => .ok (.opRef o, st)
  | _ + 1, .ctorRef c, st => .ok (.ctorRef c, st)
  | n + 1, .tuple fs, st =>
      match getSEScope st (.tuple fs) with
      | .error e => .error e
      | .ok p =>
          match captureFieldsN cfg n p fs st with
          | .error e => .error e
          | .ok out => .ok (.tuple out.1, out.2)
  | n + 1, .proj t i, st =>
      match getSEScope st (.proj t i) with
      | .error e => .error e
      | .ok p =>
          match getSEScope st t with
          | .error e => .error e
          | .ok cs =>
              match visitChildN cfg n p p cs t st with
              | .error e => .error e
              | .ok out => .ok (.proj out.1 i, out.2)
  | n + 1, .ifE c t f, st =>
      match getSEScope st (.ifE c t f) with
      | .error e => .error e
      | .ok p =>
          match getSEScope st c with
          | .error e => .error e
          | .ok csc =>
              match visitChildN cfg n p p csc c st with
              | .error e => .error e
              | .ok outc =>
                  match getSEScope outc.2 t with
                  | .error e => .error e
                  | .ok cst =>
                      match visitChildN cfg n p p cst t outc.2 with
                      | .error e => .error e
                      | .ok outt =>
                          match getSEScope outt.2 f with
                          | .error e => .error e
                          | .ok csf =>
                              match visitChildN cfg n p p csf f outt.2 with
                              | .error e => .error e
                              | .ok outf =>
                                  .ok (.ifE outc.1 outt.1 outf.1, outf.2)
  | n + 1, .letE v value body, st =>
      match getSEScope st (.letE v value body) with
      | .error e => .error e
      | .ok ls =>
          match getSEScope st (.var v) with
          | .error e => .error e
          | .ok vs =>
              match getSEScope st value with
              | .error e => .error e
              | .ok cs =>
                  match visitChildN cfg n ls vs cs value st with
                  | .error e => .error e
                  | .ok outv =>
                      match getSEScope outv.2 body with
                      | .error e => .error e
                      | .ok bs =>
                          if isLet body && bs = ls then
                            match captureN cfg n body outv.2 with
                            | .error e => .error e
                            | .ok outb => .ok (.letE v outv.1 outb.1, outb.2)
                          else
                            match visitChildN cfg n ls ls bs body outv.2 with
                            | .error e => .error e
                            | .ok outb => .ok (.letE v outv.1 outb.1, outb.2)
  | n + 1, .fnE ps body attrs, st =>
      if attrs.prim then .ok (.fnE ps body attrs, st)
      else
        let fd := domainFor (.fnE ps body attrs) st
        match resultScope fd.2 fd.1 with
        | .error e => .error e
        | .ok rs =>
            match funcParams fd.2 fd.1 with
            | .error e => .error e
            | .ok pds =>
                if pds.length = ps.length then
                  match paramScopeList fd.2 pds with
                  | .error e => .error e
                  | .ok pscopes =>
                      match getSEScope fd.2 body with
                      | .error e => .error e
                      | .ok cs =>
                          match visitChildN cfg n rs rs cs body fd.2 with
                          | .error e => .error e
                          | .ok outb =>
                              .ok (.fnE ps outb.1
                                    { prim := attrs.prim,
                                      paramScopes := some pscopes,
                                      resultScope := some rs }, outb.2)
                else .error .invariantViolation
  | n + 1, .callE (.opRef .onDeviceOp) (.cons b .nil) (.onDeviceAttrs s fx), st =>
      match getSEScope st (Expr.onDev b s fx) with
      | .error e => .error e
      | .ok _ => captureN cfg n b st
  | n + 1, .callE (.opRef .deviceCopyOp) (.cons b .nil) (.deviceCopyAttrs src dst), st =>
      match getSEScope st (Expr.devCopy b src dst) with
      | .error e => .error e
      | .ok callScope =>
          let sc := cfg.canon src
          let dc := cfg.canon dst
          if callScope = dc then
            if sc = dc then captureN cfg n b st
            else visitChildN cfg n dc dc sc b st
          else .error .invariantViolation
  | n + 1, .callE op args attrs, st =>
      match getSEScope st (.callE op args attrs) with
      | .error e => .error e
      | .ok callScope =>
          match domainForCallee cfg (.callE op args attrs) st with
          | .error e => .error e
          | .ok fd =>
              match resultScope fd.2 fd.1 with
              | .error e => .error e
              | .ok rs =>
                  match visitChildN cfg n callScope callScope rs op fd.2 with
                  | .error e => .error e
                  | .ok outop =>
                      match funcParams outop.2 fd.1 with
                      | .error e => .error e
                      | .ok pds =>
                          if pds.length = args.length then
                            match captureArgsN cfg n callScope pds args outop.2 with
                            | .error e => .error e
                            | .ok outargs =>
                                .ok (.callE outop.1 outargs.1 attrs, outargs.2)
                          else .error .invariantViolation
  | n + 1, .refCreate v, st =>
      match getSEScope st (.refCreate v) with
      | .error e => .error e
      | .ok p =>
          match getSEScope st v with
          | .error e => .error e
          | .ok cs =>
              match visitChildN cfg n p p cs v st with
              | .error e => .error e
              | .ok out => .ok (.refCreate out.1, out.2)
  | n + 1, .refRead r, st =>
      match getSEScope st (.refRead r) with
      | .error e => .error e
      | .ok p =>
          match getSEScope st r with
          | .error e => .error e
          | .ok cs =>
              match visitChildN cfg n p p cs r st with
              | .error e => .error e
              | .ok out => .ok (.refRead out.1, out.2)
  | n + 1, .refWrite r v, st =>
      match getSEScope st (.refWrite r v) with
      | .error e => .error e
      | .ok p =>
          match getSEScope st r with
          | .error e => .error e
          | .ok csr =>
              match visitChildN cfg n p p csr r st with
              | .error e => .error e
              | .ok outr =>
                  match getSEScope outr.2 v with
                  | .error e => .error e
                  | .ok csv =>
                      match visitChildN cfg n p p csv v outr.2 with
                      | .error e => .error e
                      | .ok outv => .ok (.refWrite outr.1 outv.1, outv.2)
  | n + 1, .matchE data cls, st =>
      match getSEScope st (.matchE data cls) with
      | .error e => .error e
      | .ok p =>
          match getSEScope st data with
          | .error e => .error e
          | .ok csd =>
              match visitChildN cfg n p p csd data st with
              | .error e => .error e
              | .ok outd =>
                  match captureClausesN cfg n p cls outd.2 with
                  | .error e => .error e
                  | .ok outc => .ok (.matchE outd.1 outc.1, outc.2)
termination_by structural n e st => n

/-- DeviceCapturer::VisitChild: a primitive operator or ADT constructor
is returned unchanged (device polymorphic); otherwise the child is
rewritten recursively, wrapped in
device_copy(MaybeOnDevice(child, child_scope), child_scope,
expected_scope) when the child scope differs from the expected scope,
and additionally wrapped in MaybeOnDevice(result, expected_scope) when
the expected scope differs from the lexical scope. -/
def visitChildN (cfg : Config) : Nat → Nat → Nat → Nat → Expr → Store →
    Except PlanError (Expr × Store)
  | 0, _, _, _, _, _ => .error .invariantViolation
  | _ + 1, _, _, _, .opRef o, st => .ok (.opRef o, st)
  | _ + 1, _, _, _, .ctorRef c, st => .ok (.ctorRef c, st)
  | n + 1, lexi, expected, childScope, child, st =>
      match captureN cfg n child st with
      | .error e => .error e
      | .ok out =>
          let r1 := if childScope ≠ expected
                    then Expr.devCopy (maybeOnDevice out.1 childScope true)
                           childScope expected
                    else out.1
          let r2 := if expected ≠ lexi
                    then maybeOnDevice r1 expected true
                    else r1
          .ok (r2, out.2)
termination_by structural n a b c child st => n

/-- The tuple-field loop: VisitChild(tuple, field) for each field. -/
def captureFieldsN (cfg : Config) : Nat → Nat → ExprList → Store →
    Except PlanError (ExprList × Store)
  | 0, _, _, _ => .error .invariantViolation
  | _ + 1, _, .nil, st => .ok (.nil, st)
  | n + 1, p, .cons f fs, st =>
      match getSEScope st f with
      | .error e => .error e
      | .ok cs =>
          match visitChildN cfg n p p cs f st with
          | .error e => .error e
          | .ok out =>
              match captureFieldsN cfg n p fs out.2 with
              | .error e => .error e
              | .ok outs => .ok (.cons out.1 outs.1, outs.2)
termination_by structural n p fs st => n

/-- The call-argument loop: VisitChild(call_scope, param_scope,
arg_scope, arg) for each argument against the callee parameter
domains. -/
def captureArgsN (cfg : Config) : Nat → Nat → List Nat → ExprList → Store →
    Except PlanError (ExprList × Store)
  | 0, _, _, _, _ => .error .invariantViolation
  | _ + 1, _, [], .nil, st => .ok (.nil, st)
  | n + 1, lexi, pd :: pds, .cons a as, st =>
      match resultScope st pd with
      | .error e => .error e
      | .ok pscope =>
          match getSEScope st a with
          | .error e => .error e
          | .ok cs =>
              match visitChildN cfg n lexi pscope cs a st with
              | .error e => .error e
              | .ok out =>
                  match captureArgsN cfg n lexi pds as out.2 with
                  | .error e => .error e
                  | .ok outs => .ok (.cons out.1 outs.1, outs.2)
  | _ + 1, _, _, _, _ => .error .invariantViolation
termination_by structural n lexi pds as st => n

/-- The match-clause loop: VisitChild(match, rhs) for each clause
(VisitPattern is a no-op). -/
def captureClausesN (cfg : Config) : Nat → Nat → Clauses → Store →
    Except PlanError (Clauses × Store)
  | 0, _, _, _ => .error .invariantViolation
  | _ + 1, _, .nil, st => .ok (.nil, st)
  | n + 1, p, .cons pat rhs cls, st =>
      match getSEScope st rhs with
      | .error e => .error e
      | .ok cs =>
          match visitChildN cfg n p p cs rhs st with
          | .error e => .error e
          | .ok out =>
              match captureClausesN cfg n p cls out.2 with
              | .error e => .error e
              | .ok outs => .ok (.cons pat out.1 outs.1, outs.2)
termination_by structural n p cls st => n

end

/-- DeviceCapturer::Mutate with adequate fuel. -/
def captureE (cfg : Config) (e : Expr) (st : Store) :
    Except PlanError (Expr × Store) :=
  captureN cfg (exprFuel e) e st

/-- DeviceCapturer::VisitChild with adequate fuel. -/
def visitChild (cfg : Config) (lexi expected childScope : Nat) (child : Expr)
    (st : Store) : Except PlanError (Expr × Store) :=
  visitChildN cfg (exprFuel child) lexi expected childScope child st

/-- DeviceCapturer::Capture over the module functions. -/
def captureFns (cfg : Config) : List (Nat × Expr) → Store →
    Except PlanError (List (Nat × Expr) × Store)
  | [], st => .ok ([], st)
  | (g, fn) :: rest, st =>
      match captureE cfg fn st with
      | .error e => .error e
      | .ok out =>
          match captureFns cfg rest out.2 with
          | .error e => .error e
          | .ok outs => .ok ((g, out.1) :: outs.1, outs.2)

/-- Phase 3: a new module sharing the input type definitions, imports
and source map, with every global function rewritten. -/
def captureModule (cfg : Config) (m : Module) (st : Store) :
    Except PlanError (Module × Store) :=
  match captureFns cfg m.functions st with
  | .error e => .error e
  | .ok out =>
      .ok ({ functions := out.1, typeDefs := m.typeDefs,
             imports := m.imports, sourceMap := m.sourceMap }, out.2)

/-!
## The composed PlanDevices pass
-/

/-- PlanDevices: the sequential composition of the PlanDevicesRewrite
function pass (Phase 0) and the PlanDevicesCore module pass (Phases 1
to 3 over a fresh DeviceDomains store). -/
def planDevices (cfg : Config) (m : Module) : Except PlanError Module :=
  let m0 := rwModule m
  match analyzeModule cfg m0 Store.empty with
  | .error e => .error e
  | .ok st1 =>
      match defaultModule cfg m0 st1 with
      | .error e => .error e
      | .ok st2 =>
          match captureModule cfg m0 st2 with
          | .error e => .error e
          | .ok out => .ok out.1

/-- Decidable equality of planner results. -/
instance {a b : Type} [DecidableEq a] [DecidableEq b] :
    DecidableEq (Except a b) := fun x y =>
  match x, y with
  | .ok u, .ok v =>
      if h : u = v then isTrue (by rw [h])
      else isFalse (by intro hc; cases hc; exact h rfl)
  | .error u, .error v =>
      if h : u = v then isTrue (by rw [h])
      else isFalse (by intro hc; cases hc; exact h rfl)
  | .ok _, .error _ => isFalse (by intro hc; cases hc)
  | .error _, .ok _ => isFalse (by intro hc; cases hc)

/-!
## Checkers for the claimed output invariants

The boolean checkers below are the formal readings of the claims about
the planner output; primitive functions are opaque to the planner (the
analyzer, defaulter and capturer all skip them), so the checkers for
the amended claims do not descend into them, while the
claim-as-stated checkers quantify over every function.
-/

/-- Does a function expression carry the planner attributes: a
"param_se_scopes" attribute with one scope per parameter and a
"result_se_scope" attribute (anything else reads as true since only
functions are constrained). -/
def hasScopeAttrs : Expr → Bool
  | .fnE ps _ attrs =>
      (match attrs.paramScopes with
       | some ss => ss.length == ps.length
       | none => false) && attrs.resultScope.isSome
  | _ => true

mutual

/-- Claim-as-stated reading of C1: every function, including functions
marked primitive, carries the scope attributes. -/
def allFnScopesB : Expr → Bool
  | .var _ => true
  | .gvar _ => true
  | .const _ => true
  | .opRef _ => true
  | .ctorRef _ => true
  | .tuple fs => allFnScopesList fs
  | .proj t _ => allFnScopesB t
  | .ifE c t f => allFnScopesB c && allFnScopesB t && allFnScopesB f
  | .letE _ v b => allFnScopesB v && allFnScopesB b
  | .fnE ps body attrs =>
      hasScopeAttrs (.fnE ps body attrs) && allFnScopesB body
  | .callE op args _ => allFnScopesB op && allFnScopesList args
  | .refCreate v => allFnScopesB v
  | .refRead r => allFnScopesB r
  | .refWrite r v => allFnScopesB r && allFnScopesB v
  | .matchE d cls => allFnScopesB d && allFnScopesClauses cls

/-- Claim-as-stated C1 over expression sequences. -/
def allFnScopesList : ExprList → Bool
  | .nil => true
  | .cons e es => allFnScopesB e && allFnScopesList es

/-- Claim-as-stated C1 over clause sequences. -/
def allFnScopesClauses : Clauses → Bool
  | .nil => true
  | .cons _ rhs cls => allFnScopesB rhs && allFnScopesClauses cls

end

/-- Claim-as-stated C1 over a module. -/
def allFnScopesModule (m : Module) : Bool :=
  m.functions.all (fun gf => allFnScopesB gf.2)

mutual

/-- Amended C1: every function outside a primitive function carries the
scope attributes; primitive functions are opaque. -/
def goodFuncsB : Expr → Bool
  | .var _ => true
  | .gvar _ => true
  | .const _ => true
  | .opRef _ => true
  | .ctorRef _ => true
  | .tuple fs => goodFuncsList fs
  | .proj t _ => goodFuncsB t
  | .ifE c t f => goodFuncsB c && goodFuncsB t && goodFuncsB f
  | .letE _ v b => goodFuncsB v && goodFuncsB b
  | .fnE ps body attrs =>
      if attrs.prim then true
      else hasScopeAttrs (.fnE ps body attrs) && goodFuncsB body
  | .callE op args _ => goodFuncsB op && goodFuncsList args
  | .refCreate v => goodFuncsB v
  | .refRead r => goodFuncsB r
  | .refWrite r v => goodFuncsB r && goodFuncsB v
  | .matchE d cls => goodFuncsB d && goodFuncsClauses cls

/-- Amended C1 over expression sequences. -/
def goodFuncsList : ExprList → Bool
  | .nil => true
  | .cons e es => goodFuncsB e && goodFuncsList es

/-- Amended C1 over clause sequences. -/
def goodFuncsClauses : Clauses → Bool
  | .nil => true
  | .cons _ rhs cls => goodFuncsB rhs && goodFuncsClauses cls

end

/-- Amended C1 over a module. -/
def goodFuncsModule (m : Module) : Bool :=
  m.functions.all (fun gf => goodFuncsB gf.2)

/-- The device_copy argument check of the amended C3: if the copy
argument is an "on_device" annotation, the annotation scope is the copy
source scope. -/
def copyArgOK (src : Nat) (b : Expr) : Bool :=
  match b.onDeviceProps with
  | some bsf => bsf.2.1 == src
  | none => true

mutual

/-- Amended C3: outside primitive functions, every device_copy call has
canonically distinct source and destination scopes, and its argument,
when annotated, is annotated with the source scope. -/
def goodCopiesB (cfg : Config) : Expr → Bool
  | .var _ => true
  | .gvar _ => true
  | .const _ => true
  | .opRef _ => true
  | .ctorRef _ => true
  | .tuple fs => goodCopiesList cfg fs
  | .proj t _ => goodCopiesB cfg t
  | .ifE c t f => goodCopiesB cfg c && goodCopiesB cfg t && goodCopiesB cfg f
  | .letE _ v b => goodCopiesB cfg v && goodCopiesB cfg b
  | .fnE _ body attrs => if attrs.prim then true else goodCopiesB cfg body
  | .callE (.opRef .deviceCopyOp) (.cons b .nil) (.deviceCopyAttrs src dst) =>
      (cfg.canon src != cfg.canon dst) && copyArgOK src b && goodCopiesB cfg b
  | .callE op args _ => goodCopiesB cfg op && goodCopiesList cfg args
  | .refCreate v => goodCopiesB cfg v
  | .refRead r => goodCopiesB cfg r
  | .refWrite r v => goodCopiesB cfg r && goodCopiesB cfg v
  | .matchE d cls => goodCopiesB cfg d && goodCopiesClauses cfg cls

/-- Amended C3 over expression sequences. -/
def goodCopiesList (cfg : Config) : ExprList → Bool
  | .nil => true
  | .cons e es => goodCopiesB cfg e && goodCopiesList cfg es

/-- Amended C3 over clause sequences. -/
def goodCopiesClauses (cfg : Config) : Clauses → Bool
  | .nil => true
  | .cons _ rhs cls => goodCopiesB cfg rhs && goodCopiesClauses cfg cls

end

/-- Amended C3 over a module. -/
def goodCopiesModule (cfg : Config) (m : Module) : Bool :=
  m.functions.all (fun gf => goodCopiesB cfg gf.2)

/-- Lexically recorded scope of a bound variable: the binding recorded
by the nearest enclosing function parameter attribute or let binding. -/
def lookupEnv : List (Nat × Nat) → Nat → Nat → Nat
  | [], _, dflt => dflt
  | (k, v) :: rest, x, dflt => if k = x then v else lookupEnv rest x dflt

/-- Lexical scope of a device_copy argument, as a downstream transform
recovers it: the annotation scope if the argument is annotated, the
binding record for a variable, and the source-scope convention for
anything else. -/
def lexScopeArg (cfg : Config) (env : List (Nat × Nat)) (src : Nat) :
    Expr → Nat
  | .callE (.opRef .onDeviceOp) (.cons _ .nil) (.onDeviceAttrs s _) =>
      cfg.canon s
  | .var v => lookupEnv env v (cfg.canon src)
  | _ => cfg.canon src

mutual

/-- Claim-as-stated reading of C3 (spec invariant 6): for every
device_copy in the module, the canonicalized source and destination
scopes differ and the lexical scope of the argument equals the source
scope.  The walker tracks the variable-binding records (function
parameter attributes and let bindings) and the ambient lexical scope
(nearest enclosing annotation or function result attribute). -/
def lexOKB (cfg : Config) : List (Nat × Nat) → Nat → Expr → Bool
  | _, _, .var _ => true
  | _, _, .gvar _ => true
  | _, _, .const _ => true
  | _, _, .opRef _ => true
  | _, _, .ctorRef _ => true
  | env, amb, .tuple fs => lexOKList cfg env amb fs
  | env, amb, .proj t _ => lexOKB cfg env amb t
  | env, amb, .ifE c t f =>
      lexOKB cfg env amb c && lexOKB cfg env amb t && lexOKB cfg env amb f
  | env, amb, .letE v value body =>
      let vs := match value.onDeviceProps with
                | some bsf => cfg.canon bsf.2.1
                | none => amb
      lexOKB cfg env amb value && lexOKB cfg ((v, vs) :: env) amb body
  | env, amb, .fnE ps body attrs =>
      let env2 := (match attrs.paramScopes with
                   | some ss => ps.zip (ss.map cfg.canon)
                   | none => ps.map (fun p => (p, amb))) ++ env
      let amb2 := match attrs.resultScope with
                  | some r => cfg.canon r
                  | none => amb
      lexOKB cfg env2 amb2 body
  | env, _, .callE (.opRef .onDeviceOp) (.cons b .nil) (.onDeviceAttrs s fx) =>
      lexOKB cfg env (cfg.canon s) b
  | env, _, .callE (.opRef .deviceCopyOp) (.cons b .nil)
      (.deviceCopyAttrs src dst) =>
      (cfg.canon src != cfg.canon dst) &&
      (lexScopeArg cfg env src b == cfg.canon src) &&
      lexOKB cfg env (cfg.canon src) b
  | env, amb, .callE op args _ =>
      lexOKB cfg env amb op && lexOKList cfg env amb args
  | env, amb, .refCreate v => lexOKB cfg env amb v
  | env, amb, .refRead r => lexOKB cfg env amb r
  | env, amb, .refWrite r v => lexOKB cfg env amb r && lexOKB cfg env amb v
  | env, amb, .matchE d cls =>
      lexOKB cfg env amb d && lexOKClauses cfg env amb cls

/-- Claim-as-stated C3 over expression sequences. -/
def lexOKList (cfg : Config) : List (Nat × Nat) → Nat → ExprList → Bool
  | _, _, .nil => true
  | env, amb, .cons e es => lexOKB cfg env amb e && lexOKList cfg env amb es

/-- Claim-as-stated C3 over clause sequences. -/
def lexOKClauses (cfg : Config) : List (Nat × Nat) → Nat → Clauses → Bool
  | _, _, .nil => true
  | env, amb, .cons _ rhs cls =>
      lexOKB cfg env amb rhs && lexOKClauses cfg env amb cls

end

/-- Claim-as-stated C3 over a module (each function checked under its
own attributes, starting from the default scope). -/
def lexOKModule (cfg : Config) (m : Module) : Bool :=
  m.functions.all (fun gf => lexOKB cfg [] cfg.defaultScope gf.2)

/-!
## A family of function-domain stores for the Defaulter claim

mkFnStore builds the store state in which the Defaulter meets a
function whose higher-order domain has the given parameter and result
leaf states (some s: constrained to s, none: still free), with the
function expression bound to the higher-order domain.
-/

/-- Leaf shape of an optionally constrained scope. -/
def leafShape : Option Nat → DShape
  | none => .free
  | some s => .val s

/-- Allocates one leaf per optional scope value. -/
def mkLeaves : List (Option Nat) → Store → List Nat × Store
  | [], st => ([], st)
  | p :: ps, st =>
      let a := st.alloc (leafShape p)
      let rest := mkLeaves ps a.2
      (a.1 :: rest.1, rest.2)

/-- The store in which the given function expression has a higher-order
domain with the given parameter and result leaves.  Returns the store,
the higher-order domain id, the parameter leaf ids and the result leaf
id. -/
def mkFnStore (fn : Expr) (pvals : List (Option Nat)) (rval : Option Nat) :
    Store × Nat × List Nat × Nat :=
  let a := mkLeaves pvals Store.empty
  let b := a.2.alloc (leafShape rval)
  let c := b.2.alloc (.higher a.1 b.1)
  ({ c.2 with exprMap := [(fn, c.1)] }, c.1, a.1, b.1)

/-- The result scope that SetResultDefaultThenParams fixes first: the
already-constrained result leaf, or the canonicalized global default
scope. -/
def fixedResult (cfg : Config) (rval : Option Nat) : Nat :=
  rval.getD (cfg.canon cfg.defaultScope)

/-- The leaves of the function domain after the Defaulter ran: the
result position holds the fixed result scope, and every parameter
position holds its previous constraint or the (canonicalized) fixed
result scope. -/
def defaultedFnShapes (cfg : Config) (pvals : List (Option Nat))
    (rval : Option Nat) : List DShape :=
  (pvals.map (fun p => DShape.val (p.getD (cfg.canon (fixedResult cfg rval)))))
    ++ [DShape.val (fixedResult cfg rval),
        DShape.higher (List.range pvals.length) pvals.length]

/-- The store part of mkFnStore, written out: parameter leaves first,
then the result leaf, then the higher-order node, with the function
bound to the higher-order node. -/
def c6Store (fn : Expr) (pvals : List (Option Nat)) (rval : Option Nat) :
    Store :=
  ⟨pvals.map leafShape ++
      [leafShape rval,
       DShape.higher (List.range pvals.length) pvals.length],
    [(fn, pvals.length + 1)], []⟩

/-- The call-branch counterpart of c6Store: the same higher-order
shapes, with the call expression bound to the higher-order node in the
callee-domain map (call_to_callee_domain_) instead of the expression
map. -/
def c6CallStore (call : Expr) (pvals : List (Option Nat))
    (rval : Option Nat) : Store :=
  ⟨pvals.map leafShape ++
      [leafShape rval,
       DShape.higher (List.range pvals.length) pvals.length],
    [], [(call, pvals.length + 1)]⟩

/-!
## Concrete configuration and modules for the claim instances

Scopes: 0 is the CPU (also the host and default scope), 1 is the GPU.
The canonical form is the identity (every scope mentioned is already
canonical).
-/

/-- Concrete compilation config: identity canonicalization, default and
host scope 0. -/
def cfg0 : Config := ⟨id, 0, 0⟩

/-- The empty module (used only as a junk default for staging). -/
def junkMod : Module := ⟨[], [], [], 0⟩

/-- Unwraps a planner result, with a junk default for the impossible
error case. -/
def exOk {a : Type} (x : Except PlanError a) (dflt : a) : a :=
  match x with
  | .ok v => v
  | .error _ => dflt

/-- Function attributes of a plain (unannotated, non-primitive)
function. -/
def attrs0 : FuncAttrs := ⟨false, none, none⟩

/-- A primitive (fused) function without scope attributes. -/
def primFnEx : Expr := .fnE [2] (.var 2) ⟨true, none, none⟩

/-- Module with a plain main function and a primitive function, for the
C1 instance. -/
def mprim : Module := ⟨[(0, .fnE [1] (.var 1) attrs0), (1, primFnEx)], [], [], 0⟩

/-- Phase 0 output for mprim. -/
def mprimR : Module := rwModule mprim

/-- Analyzer store for mprim. -/
def mprimStA : Store := exOk (analyzeModule cfg0 mprimR Store.empty) Store.empty

/-- Defaulter store for mprim. -/
def mprimStB : Store := exOk (defaultModule cfg0 mprimR mprimStA) Store.empty

/-- Planner output module for mprim. -/
def mprimOut : Module :=
  (exOk (captureModule cfg0 mprimR mprimStB) (junkMod, Store.empty)).1

/-- Final store for mprim. -/
def mprimStC : Store :=
  (exOk (captureModule cfg0 mprimR mprimStB) (junkMod, Store.empty)).2

/-- Module whose main function applies a primitive operator to a
doubly-annotated variable: on_device(on_device(x, scope 0, not fixed),
scope 1, not fixed).  Scenario for the C3 counterexample and the C8
failing input. -/
def m3 : Module :=
  ⟨[(0, .fnE [1] (.callE (.opRef (.primOp 0))
      (.cons (Expr.onDev (Expr.onDev (.var 1) 0 false) 1 false) .nil)
      .noAttrs) attrs0)], [], [], 0⟩

/-- Phase 0 output for m3. -/
def m3R : Module := rwModule m3

/-- Analyzer store for m3. -/
def m3StA : Store := exOk (analyzeModule cfg0 m3R Store.empty) Store.empty

/-- Defaulter store for m3. -/
def m3StB : Store := exOk (defaultModule cfg0 m3R m3StA) Store.empty

/-- Planner output module for m3: the main function, with parameter
scope 0 and result scope 0, applies the primitive to
device_copy(x, src=1, dst=0) whose argument is the bare parameter x
recorded at scope 0. -/
def m3Out : Module :=
  ⟨[(0, .fnE [1] (.callE (.opRef (.primOp 0))
      (.cons (Expr.devCopy (.var 1) 1 0) .nil)
      .noAttrs) ⟨false, some [0], some 0⟩)], [], [], 0⟩

/-- Final store for m3. -/
def m3StC : Store :=
  (exOk (captureModule cfg0 m3R m3StB) (junkMod, Store.empty)).2

/-- Phase 0 output of re-running the planner on m3Out. -/
def m3OutR : Module := rwModule m3Out

/-- The fatal error of the second planner run on m3Out: the device_copy
callee domain pins the argument to scope 1, while the function
attribute pins the parameter x to scope 0. -/
def m3SecondErr : PlanError :=
  .callScopesFatal
    (.dHigher (.cons (.dVal 1) .nil) (.dVal 0))
    (.dHigher (.cons (.dVal 0) .nil) .dFree)
    (Expr.devCopy (.var 1) 1 0)

/-- Module with conflicting fixed annotations: let y = on_device(c,
scope s1, fixed) used under on_device(y, scope s2, fixed).  With s1 = 0
and s2 = 1 this is the C7 conflict instance. -/
def m7 (s1 s2 : Nat) : Module :=
  ⟨[(0, .fnE [1] (.letE 2 (Expr.onDev (.const 0) s1 true)
      (Expr.onDev (.var 2) s2 true)) attrs0)], [], [], 0⟩

/-- The fatal error of the analyzer on m7 0 1: the "on_device" callee
domain (pinned to scope 1 in argument and result) against the implied
domain whose argument y is already pinned to scope 0, at the offending
annotation call. -/
def m7Err : PlanError :=
  .callScopesFatal
    (.dHigher (.cons (.dVal 1) .nil) (.dVal 1))
    (.dHigher (.cons (.dVal 0) .nil) .dFree)
    (Expr.onDev (.var 2) 1 true)

/-- Is the expression a primitive operator or ADT constructor reference
(the early-return test of VisitChild). -/
def isOpOrCtor : Expr → Bool
  | .opRef _ => true
  | .ctorRef _ => true
  | _ => false

/-- Is the expression exempt from MaybeOnDevice wrapping: a variable, a
global variable, an operator or a constructor. -/
def isWrapExempt : Expr → Bool
  | .var _ => true
  | .gvar _ => true
  | .opRef _ => true
  | .ctorRef _ => true
  | _ => false

/-- The wrapping applied by VisitChild after the child has been
rewritten: a device_copy towards the expected scope when the child
scope differs, and an "on_device" marker when the expected scope is not
the lexical one (both through MaybeOnDevice). -/
def childWrap (lexi expected childScope : Nat) (r : Expr) : Expr :=
  let r1 := if childScope ≠ expected
            then Expr.devCopy (maybeOnDevice r childScope true) childScope expected
            else r
  if expected ≠ lexi then maybeOnDevice r1 expected true else r1

/-!
## Staged evaluations of the concrete runs

Each phase is evaluated against the named store of the previous phase,
and the composed pass equation follows by rewriting; this keeps every
kernel evaluation to a single phase.
-/

/-- Phase-by-phase run of the planner on mprim. -/
theorem plan_mprim_eq : planDevices cfg0 mprim = .ok mprimOut := by
  have h0 : rwModule mprim = mprimR := rfl
  have hA : analyzeModule cfg0 mprimR Store.empty = .ok mprimStA := by decide
  have hB : defaultModule cfg0 mprimR mprimStA = .ok mprimStB := by decide
  have hC : captureModule cfg0 mprimR mprimStB = .ok (mprimOut, mprimStC) := by
    decide
  simp only [planDevices, h0, hA, hB, hC]

/-- Phase-by-phase run of the planner on m3. -/
theorem plan_m3_eq : planDevices cfg0 m3 = .ok m3Out := by
  have h0 : rwModule m3 = m3R := rfl
  have hA : analyzeModule cfg0 m3R Store.empty = .ok m3StA := by decide
  have hB : defaultModule cfg0 m3R m3StA = .ok m3StB := by decide
  have hC : captureModule cfg0 m3R m3StB = .ok (m3Out, m3StC) := by decide
  simp only [planDevices, h0, hA, hB, hC]

/-- Re-running the planner on the m3 output aborts in the analyzer. -/
theorem plan_m3Out_eq : planDevices cfg0 m3Out = .error m3SecondErr := by
  have h0 : rwModule m3Out = m3OutR := rfl
  have hA : analyzeModule cfg0 m3OutR Store.empty = .error m3SecondErr := by
    decide
  simp only [planDevices, h0, hA]

/-- The planner on the conflicting-annotations module aborts in the
analyzer. -/
theorem plan_m7_eq : planDevices cfg0 (m7 0 1) = .error m7Err := by
  have h0 : rwModule (m7 0 1) = rwModule (m7 0 1) := rfl
  have hA : analyzeModule cfg0 (rwModule (m7 0 1)) Store.empty =
      .error m7Err := by decide
  simp only [planDevices, hA]

/-- Phase 3 equation for m3, standalone for reuse. -/
theorem capture_m3_eq :
    captureModule cfg0 m3R m3StB = .ok (m3Out, m3StC) := by decide

/-- C4 (counterexample): Phase 0 does not rewrite
(on_device(e, scope=d, is_fixed=false)).i to
on_device(e.i, scope=d, is_fixed=false); at e = the variable 3, d = 1,
i = 0 it instead wraps the projection in a new non-fixed annotation
while the inner annotation remains on the full tuple operand. -/
theorem c4_counterexample :
    rwExpr (.proj (Expr.onDev (.var 3) 1 false) 0) =
      Expr.onDev (.proj (Expr.onDev (.var 3) 1 false) 0) 1 false ∧
    Expr.onDev (.proj (Expr.onDev (.var 3) 1 false) 0) 1 false ≠
      Expr.onDev (.proj (.var 3) 0) 1 false := by
  constructor
  · decide
  · decide

/-- C4 (amended): for every tuple projection whose (rewritten) tuple
operand is a non-fixed annotation, Phase 0 wraps the projection in a
new non-fixed annotation with the same scope; the inner annotation
stays on the tuple operand rather than being removed. -/
theorem c4_amended :
    ∀ (e : Expr) (s i : Nat),
      rwExpr (.proj (Expr.onDev e s false) i) =
        Expr.onDev (.proj (Expr.onDev (rwExpr e) s false) i) s false := by
  intro e s i
  simp [rwExpr, rwList, Expr.onDev, Expr.onDeviceProps]

/-- C5: Phase 0 replaces a non-fixed annotation in let-bound position
or function-body position by a fixed annotation on its body, and
already-fixed annotations in those positions pass through unchanged
(their bodies being rewritten recursively in all cases). -/
theorem c5_fix_let_and_function_bodies :
    (∀ (x : Nat) (e : Expr) (s : Nat) (b : Expr),
      rwExpr (.letE x (Expr.onDev e s false) b) =
        .letE x (Expr.onDev (rwExpr e) s true) (rwExpr b)) ∧
    (∀ (ps : List Nat) (e : Expr) (s : Nat) (attrs : FuncAttrs),
      rwExpr (.fnE ps (Expr.onDev e s false) attrs) =
        .fnE ps (Expr.onDev (rwExpr e) s true) attrs) ∧
    (∀ (x : Nat) (e : Expr) (s : Nat) (b : Expr),
      rwExpr (.letE x (Expr.onDev e s true) b) =
        .letE x (Expr.onDev (rwExpr e) s true) (rwExpr b)) ∧
    (∀ (ps : List Nat) (e : Expr) (s : Nat) (attrs : FuncAttrs),
      rwExpr (.fnE ps (Expr.onDev e s true) attrs) =
        .fnE ps (Expr.onDev (rwExpr e) s true) attrs) := by
  refine ⟨?_, ?_, ?_, ?_⟩ <;>
    · intros
      simp [rwExpr, rwList, fixOnDevice, Expr.onDev, Expr.onDeviceProps]

/-- C8: the planner is not idempotent.  On the module m3 (a primitive
call whose argument carries nested non-fixed annotations with scopes 0
inside 1) the first run succeeds, producing a device_copy from scope 1
to scope 0 whose argument is the bare parameter recorded at scope 0;
re-running the planner on that output raises the unification fatal in
the analyzer, so plan(plan(m3)) is an error while plan(m3) is not. -/
theorem c8_failing_input_evaluation :
    planDevices cfg0 m3 = .ok m3Out ∧
    planDevices cfg0 m3Out = .error m3SecondErr := by
  exact ⟨plan_m3_eq, plan_m3Out_eq⟩

/-- C9: the planner is deterministic; it is a pure function of the
module and the compilation configuration, so any two runs on the same
inputs return structurally identical results. -/
theorem c9_determinism :
    ∀ (cfg : Config) (m : Module) (r1 r2 : Except PlanError Module),
      planDevices cfg m = r1 → planDevices cfg m = r2 → r1 = r2 := by
  intro cfg m r1 r2 h1 h2
  rw [← h1, ← h2]

/-- C9 (witness): two runs on the concrete module mprim agree. -/
theorem c9_determinism_witness :
    (Except.ok mprimOut : Except PlanError Module) = .ok mprimOut :=
  c9_determinism cfg0 mprim (.ok mprimOut) (.ok mprimOut)
    plan_mprim_eq plan_mprim_eq

/-- C1 (counterexample): the planner output for mprim does not give
every function the scope attributes; the primitive function (global 1)
passes through the Capturer unchanged and carries neither
"param_se_scopes" nor "result_se_scope". -/
theorem c1_counterexample :
    planDevices cfg0 mprim = .ok mprimOut ∧
    allFnScopesModule mprimOut = false := by
  refine ⟨plan_mprim_eq, ?_⟩
  decide

/-- C2 (counterexample): VisitChild with a variable child (child scope
1, expected and lexical scope 0) returns device_copy(x, src=1, dst=0)
with the bare variable as argument; the claimed shape
device_copy(on_device(x, scope=1, is_fixed=true), src=1, dst=0) is a
different expression. -/
theorem c2_counterexample :
    visitChild cfg0 0 0 1 (.var 7) Store.empty =
      .ok (Expr.devCopy (.var 7) 1 0, Store.empty) ∧
    Expr.devCopy (.var 7) 1 0 ≠
      Expr.devCopy (Expr.onDev (.var 7) 1 true) 1 0 := by
  constructor
  · decide
  · decide

/-- C3 (counterexample): the planner output for m3 violates the stated
invariant: it contains device_copy(x, src=1, dst=0) whose argument is
the bare parameter x, and the lexical scope of x (its
"param_se_scopes" record, scope 0) differs from the source scope 1. -/
theorem c3_counterexample :
    planDevices cfg0 m3 = .ok m3Out ∧
    lexOKModule cfg0 m3Out = false := by
  refine ⟨plan_m3_eq, ?_⟩
  decide

/-- Phase 3 rewrites each global function in place: the list of global
variable names is unchanged. -/
theorem captureFns_names (cfg : Config) :
    ∀ (fns : List (Nat × Expr)) (st : Store)
      (out : List (Nat × Expr) × Store),
      captureFns cfg fns st = .ok out →
      out.1.map Prod.fst = fns.map Prod.fst := by
  intro fns
  induction fns with
  | nil =>
      intro st out h
      simp only [captureFns] at h
      cases h
      rfl
  | cons gf rest ih =>
      intro st out h
      obtain ⟨g, fn⟩ := gf
      simp only [captureFns] at h
      cases hc : captureE cfg fn st with
      | error e => simp only [hc] at h; exact absurd h (by simp)
      | ok o =>
          simp only [hc] at h
          cases hr : captureFns cfg rest o.2 with
          | error e => simp only [hr] at h; exact absurd h (by simp)
          | ok outs =>
              simp only [hr] at h
              cases h
              simp [ih o.2 outs hr]

/-- C10: whenever the Capturer succeeds, the output module keeps the
input module's type definitions, imports and source map, and its
function list binds exactly the same global variables in the same
order (only the function bodies are rewritten). -/
theorem c10_capture_preserves_structure :
    ∀ (cfg : Config) (m : Module) (st : Store) (out : Module × Store),
      captureModule cfg m st = .ok out →
      out.1.typeDefs = m.typeDefs ∧ out.1.imports = m.imports ∧
      out.1.sourceMap = m.sourceMap ∧
      out.1.functions.map Prod.fst = m.functions.map Prod.fst := by
  intro cfg m st out h
  simp only [captureModule] at h
  cases hf : captureFns cfg m.functions st with
  | error e => simp only [hf] at h; exact absurd h (by simp)
  | ok o =>
      simp only [hf] at h
      cases h
      exact ⟨rfl, rfl, rfl, captureFns_names cfg m.functions st o hf⟩

/-- C10 (witness): at the concrete capture run on m3's rewritten
module, names and module metadata are preserved. -/
theorem c10_capture_preserves_structure_witness :
    m3Out.typeDefs = m3R.typeDefs ∧ m3Out.imports = m3R.imports ∧
    m3Out.sourceMap = m3R.sourceMap ∧
    m3Out.functions.map Prod.fst = m3R.functions.map Prod.fst :=
  c10_capture_preserves_structure cfg0 m3R m3StB (m3Out, m3StC)
    capture_m3_eq

/-- C7: asking two fully-constrained first-order domains with
different scopes to unify raises the unification error; on the
concrete module m7 0 1 (a fixed scope-0 binding used under a fixed
scope-1 annotation) that error surfaces during the Analyzer phase as a
fatal carrying the printed representations of both domains and the
offending sub-expression, and the composed pass aborts with that same
error, producing no output module. -/
theorem c7_unify_conflict_fatal :
    (∀ (cfg : Config) (n a b : Nat) (st : Store) (sa sb : Nat),
      st.shapeAt (st.find a) = .val sa →
      st.shapeAt (st.find b) = .val sb →
      sa ≠ sb →
      unifyN cfg (n + 1) a b st = .error (.unifyConflict sa sb)) ∧
    analyzeModule cfg0 (rwModule (m7 0 1)) Store.empty = .error m7Err ∧
    planDevices cfg0 (m7 0 1) = .error m7Err := by
  refine ⟨?_, by decide, plan_m7_eq⟩
  intro cfg n a b st sa sb ha hb hne
  have hfind : st.find a ≠ st.find b := by
    intro h
    rw [h, hb] at ha
    injection ha with h2
    exact hne h2.symm
  simp [unifyN, hfind, ha, hb, hne]

/-- C7 (witness): on a concrete two-node store whose roots carry
scopes 0 and 1, unification reports the 0-versus-1 conflict, and the
module-level instance holds. -/
theorem c7_unify_conflict_fatal_witness :
    unifyN cfg0 1 0 1 (⟨[.val 0, .val 1], [], []⟩ : Store) =
      .error (.unifyConflict 0 1) ∧
    planDevices cfg0 (m7 0 1) = .error m7Err :=
  ⟨c7_unify_conflict_fatal.1 cfg0 0 0 1 ⟨[.val 0, .val 1], [], []⟩ 0 1
      (by decide) (by decide) (by decide),
    c7_unify_conflict_fatal.2.2⟩

/-- Reading a list at the length of a known prefix. -/
theorem getD_append_len (xs : List DShape) (y : DShape) (zs : List DShape) :
    (xs ++ y :: zs).getD xs.length DShape.free = y := by
  induction xs with
  | nil => rfl
  | cons x xs ih => simpa using ih

/-- Writing a list at the length of a known prefix. -/
theorem set_append_len (xs : List DShape) (y v : DShape) (zs : List DShape) :
    (xs ++ y :: zs).set xs.length v = xs ++ v :: zs := by
  induction xs with
  | nil => rfl
  | cons x xs ih => simpa using ih

/-- Link chasing stops immediately on a non-link shape, with any
positive fuel. -/
theorem findN_of_not_link (st : Store) (d : Nat)
    (h : ∀ t, st.shapeAt d ≠ DShape.link t) :
    ∀ m, st.findN (m + 1) d = d := by
  intro m
  cases hs : st.shapeAt d with
  | link t => exact absurd hs (h t)
  | free => simp [Store.findN, hs]
  | val s => simp [Store.findN, hs]
  | higher ps r => simp [Store.findN, hs]

/-- A domain whose shape is not a link is its own representative. -/
theorem find_of_not_link (st : Store) (d : Nat)
    (h : ∀ t, st.shapeAt d ≠ DShape.link t) : st.find d = d := by
  have hf : st.fuel = 2 * st.shapes.length + 1 + 1 := by
    simp [Store.fuel]
  simp only [Store.find, hf]
  exact findN_of_not_link st d h (2 * st.shapes.length + 1)

/-- Leaf shapes are never links. -/
theorem leafShape_ne_link (p : Option Nat) (t : Nat) :
    leafShape p ≠ DShape.link t := by
  cases p <;> simp [leafShape]

/-- mkLeaves appends one leaf per optional scope and returns the
consecutive ids. -/
theorem mkLeaves_eq :
    ∀ (ps : List (Option Nat)) (st : Store),
      mkLeaves ps st =
        (List.range' st.shapes.length ps.length,
         ⟨st.shapes ++ ps.map leafShape, st.exprMap, st.calleeMap⟩) := by
  intro ps
  induction ps with
  | nil => intro st; simp [mkLeaves]
  | cons p ps ih =>
      intro st
      simp [mkLeaves, Store.alloc, ih, List.range'_succ]

/-- mkFnStore written out. -/
theorem mkFnStore_eq (fn : Expr) (pvals : List (Option Nat))
    (rval : Option Nat) :
    mkFnStore fn pvals rval =
      (c6Store fn pvals rval, pvals.length + 1,
       List.range pvals.length, pvals.length) := by
  simp [mkFnStore, mkLeaves_eq, Store.alloc, Store.empty, c6Store,
    List.range_eq_range']

/-- SetDefault over a contiguous block of leaf ids: every free leaf in
the block receives the (canonicalized) scope and every constrained
leaf keeps its value; entries outside the block are untouched. -/
theorem setDefaultList_leaves (cfg : Config) (s : Nat) :
    ∀ (tail : List (Option Nat)) (pre post : List DShape)
      (em cm : List (Expr × Nat)) (F : Nat),
      tail.length + 1 ≤ F →
      setDefaultList cfg F s ⟨pre ++ tail.map leafShape ++ post, em, cm⟩
          (List.range' pre.length tail.length) =
        ⟨pre ++ tail.map (fun p => DShape.val (p.getD (cfg.canon s))) ++ post,
          em, cm⟩ := by
  intro tail
  induction tail with
  | nil =>
      intro pre post em cm F hF
      cases F with
      | zero => exact absurd hF (by simp)
      | succ F => simp [setDefaultList, List.range']
  | cons p tail ih =>
      intro pre post em cm F hF
      cases F with
      | zero => exact absurd hF (by simp)
      | succ F1 =>
          cases F1 with
          | zero => exact absurd hF (by simp)
          | succ F2 =>
              have hshape :
                  (⟨pre ++ (p :: tail).map leafShape ++ post, em, cm⟩ :
                    Store).shapeAt pre.length = leafShape p := by
                simpa [Store.shapeAt] using
                  getD_append_len pre (leafShape p)
                    (tail.map leafShape ++ post)
              have hfind :
                  (⟨pre ++ (p :: tail).map leafShape ++ post, em, cm⟩ :
                    Store).find pre.length = pre.length :=
                find_of_not_link _ _
                  (fun t => by rw [hshape]; exact leafShape_ne_link p t)
              have hstep :
                  setDefaultN cfg (F2 + 1) s
                      ⟨pre ++ (p :: tail).map leafShape ++ post, em, cm⟩
                      pre.length =
                    ⟨(pre ++ [DShape.val (p.getD (cfg.canon s))]) ++
                        tail.map leafShape ++ post, em, cm⟩ := by
                cases p with
                | none =>
                    simp only [setDefaultN, hfind, hshape, leafShape,
                      Store.setShape]
                    have hset := set_append_len pre DShape.free
                      (DShape.val (cfg.canon s))
                      (tail.map leafShape ++ post)
                    simp only [List.map_cons, leafShape]
                    simp only [List.cons_append, List.append_assoc] at hset ⊢
                    simp [hset]
                | some s0 =>
                    simp only [setDefaultN, hfind, hshape, leafShape]
                    simp [leafShape]
              have hrest := ih (pre ++ [DShape.val (p.getD (cfg.canon s))])
                post em cm (F2 + 1) (by simp at hF ⊢; omega)
              have hpeel :
                  setDefaultList cfg (F2 + 1 + 1) s
                      ⟨pre ++ (p :: tail).map leafShape ++ post, em, cm⟩
                      (List.range' pre.length (p :: tail).length) =
                    setDefaultList cfg (F2 + 1) s
                      ⟨(pre ++ [DShape.val (p.getD (cfg.canon s))]) ++
                          tail.map leafShape ++ post, em, cm⟩
                      (List.range' (pre.length + 1) tail.length) := by
                simp only [List.length_cons, List.range'_succ,
                  setDefaultList, hstep]
              rw [hpeel]
              simpa using hrest

/-- SetResultDefaultThenParams on a higher-order domain whose leaves
have the given constraint states, over any expression maps: the result
leaf is defaulted to the (canonicalized) given scope if still free,
and then every free parameter leaf is defaulted to the (canonicalized)
now-fixed result scope. -/
theorem setRDTP_leaves (cfg : Config) (s : Nat)
    (pvals : List (Option Nat)) (rval : Option Nat)
    (em cm : List (Expr × Nat)) :
    setRDTP cfg s
        ⟨pvals.map leafShape ++
            [leafShape rval,
             DShape.higher (List.range pvals.length) pvals.length], em, cm⟩
        (pvals.length + 1) =
      .ok ⟨(pvals.map fun p =>
              DShape.val (p.getD (cfg.canon (rval.getD (cfg.canon s))))) ++
            [DShape.val (rval.getD (cfg.canon s)),
             DShape.higher (List.range pvals.length) pvals.length],
          em, cm⟩ := by
  cases rval with
  | none =>
      simp only [leafShape, Option.getD_none]
      have hA : (⟨pvals.map leafShape ++
            [DShape.free,
             DShape.higher (List.range pvals.length) pvals.length],
            em, cm⟩ : Store).shapeAt (pvals.length + 1) =
          DShape.higher (List.range pvals.length) pvals.length := by
        simpa [Store.shapeAt] using
          getD_append_len (pvals.map leafShape ++ [DShape.free])
            (DShape.higher (List.range pvals.length) pvals.length) []
      have hfindA : (⟨pvals.map leafShape ++
            [DShape.free,
             DShape.higher (List.range pvals.length) pvals.length],
            em, cm⟩ : Store).find (pvals.length + 1) = pvals.length + 1 :=
        find_of_not_link _ _ (fun t => by rw [hA]; simp)
      have hB : (⟨pvals.map leafShape ++
            [DShape.free,
             DShape.higher (List.range pvals.length) pvals.length],
            em, cm⟩ : Store).shapeAt pvals.length = DShape.free := by
        simpa [Store.shapeAt] using
          getD_append_len (pvals.map leafShape) DShape.free
            [DShape.higher (List.range pvals.length) pvals.length]
      have hfindB : (⟨pvals.map leafShape ++
            [DShape.free,
             DShape.higher (List.range pvals.length) pvals.length],
            em, cm⟩ : Store).find pvals.length = pvals.length :=
        find_of_not_link _ _ (fun t => by rw [hB]; simp)
      simp only [setRDTP, Store.fuel, setRDTPN, hfindA, hA, hfindB, hB,
        setDefault, setDefaultN]
      have hT : (⟨pvals.map leafShape ++
            [DShape.free,
             DShape.higher (List.range pvals.length) pvals.length],
            em, cm⟩ : Store).setShape pvals.length
            (DShape.val (cfg.canon s)) =
          ⟨pvals.map leafShape ++
              [DShape.val (cfg.canon s),
               DShape.higher (List.range pvals.length) pvals.length],
            em, cm⟩ := by
        have hset := set_append_len (pvals.map leafShape) DShape.free
          (DShape.val (cfg.canon s))
          [DShape.higher (List.range pvals.length) pvals.length]
        simp only [List.length_map] at hset
        simp [Store.setShape, hset]
      rw [hT]
      have hBT : (⟨pvals.map leafShape ++
            [DShape.val (cfg.canon s),
             DShape.higher (List.range pvals.length) pvals.length],
            em, cm⟩ : Store).shapeAt pvals.length =
          DShape.val (cfg.canon s) := by
        simpa [Store.shapeAt] using
          getD_append_len (pvals.map leafShape) (DShape.val (cfg.canon s))
            [DShape.higher (List.range pvals.length) pvals.length]
      have hfindBT : (⟨pvals.map leafShape ++
            [DShape.val (cfg.canon s),
             DShape.higher (List.range pvals.length) pvals.length],
            em, cm⟩ : Store).find pvals.length = pvals.length :=
        find_of_not_link _ _ (fun t => by rw [hBT]; simp)
      have hresT : resultScope
          (⟨pvals.map leafShape ++
              [DShape.val (cfg.canon s),
               DShape.higher (List.range pvals.length) pvals.length],
              em, cm⟩ : Store) pvals.length = .ok (cfg.canon s) := by
        simp only [resultScope, Store.fuel, resultScopeN, hfindBT, hBT]
      rw [hresT]
      have hlist := setDefaultList_leaves cfg (cfg.canon s) pvals []
        [DShape.val (cfg.canon s),
         DShape.higher (List.range pvals.length) pvals.length]
        em cm
        (2 * (pvals.map leafShape ++
            [DShape.val (cfg.canon s),
             DShape.higher (List.range pvals.length) pvals.length]).length + 2)
        (by simp; omega)
      simpa [List.range_eq_range'] using hlist
  | some s0 =>
      simp only [leafShape, Option.getD_some]
      have hA : (⟨pvals.map leafShape ++
            [DShape.val s0,
             DShape.higher (List.range pvals.length) pvals.length],
            em, cm⟩ : Store).shapeAt (pvals.length + 1) =
          DShape.higher (List.range pvals.length) pvals.length := by
        simpa [Store.shapeAt] using
          getD_append_len (pvals.map leafShape ++ [DShape.val s0])
            (DShape.higher (List.range pvals.length) pvals.length) []
      have hfindA : (⟨pvals.map leafShape ++
            [DShape.val s0,
             DShape.higher (List.range pvals.length) pvals.length],
            em, cm⟩ : Store).find (pvals.length + 1) = pvals.length + 1 :=
        find_of_not_link _ _ (fun t => by rw [hA]; simp)
      have hB : (⟨pvals.map leafShape ++
            [DShape.val s0,
             DShape.higher (List.range pvals.length) pvals.length],
            em, cm⟩ : Store).shapeAt pvals.length = DShape.val s0 := by
        simpa [Store.shapeAt] using
          getD_append_len (pvals.map leafShape) (DShape.val s0)
            [DShape.higher (List.range pvals.length) pvals.length]
      have hfindB : (⟨pvals.map leafShape ++
            [DShape.val s0,
             DShape.higher (List.range pvals.length) pvals.length],
            em, cm⟩ : Store).find pvals.length = pvals.length :=
        find_of_not_link _ _ (fun t => by rw [hB]; simp)
      simp only [setRDTP, Store.fuel, setRDTPN, hfindA, hA, hfindB, hB,
        setDefault, setDefaultN]
      have hres : resultScope (⟨pvals.map leafShape ++
            [DShape.val s0,
             DShape.higher (List.range pvals.length) pvals.length],
            em, cm⟩ : Store) pvals.length = .ok s0 := by
        simp only [resultScope, Store.fuel, resultScopeN, hfindB, hB]
      rw [hres]
      have hlist := setDefaultList_leaves cfg s0 pvals []
        [DShape.val s0, DShape.higher (List.range pvals.length) pvals.length]
        em cm
        (2 * (pvals.map leafShape ++
            [DShape.val s0,
             DShape.higher (List.range pvals.length) pvals.length]).length + 2)
        (by simp; omega)
      simpa [List.range_eq_range'] using hlist

/-- C6: when the Defaulter visits a non-primitive function, or a call,
whose (callee) higher-order domain — parameter leaves and result leaf
in the given constraint states — is not fully constrained, it first
defaults the result position to the global default scope and then
defaults each parameter position to that now-fixed result scope,
before continuing into the function body, respectively the call
operator and arguments, over the defaulted store. -/
theorem c6_defaulter_result_then_params :
    (∀ (cfg : Config) (n : Nat) (ps : List Nat) (body : Expr)
       (attrs : FuncAttrs) (pvals : List (Option Nat)) (rval : Option Nat),
      attrs.prim = false →
      ps.length = pvals.length →
      isFully (c6Store (.fnE ps body attrs) pvals rval)
        (pvals.length + 1) = false →
      visitDN cfg (n + 1) (.fnE ps body attrs)
          (c6Store (.fnE ps body attrs) pvals rval) =
        visitDN cfg n body
          ⟨defaultedFnShapes cfg pvals rval,
           [(.fnE ps body attrs, pvals.length + 1)], []⟩) ∧
    (∀ (cfg : Config) (n : Nat) (op : Expr) (args : ExprList)
       (attrs : CallAttrs) (pvals : List (Option Nat)) (rval : Option Nat),
      args.length = pvals.length →
      isFully (c6CallStore (.callE op args attrs) pvals rval)
        (pvals.length + 1) = false →
      visitDN cfg (n + 1) (.callE op args attrs)
          (c6CallStore (.callE op args attrs) pvals rval) =
        (match visitDN cfg n op
            ⟨defaultedFnShapes cfg pvals rval, [],
             [(.callE op args attrs, pvals.length + 1)]⟩ with
         | .error e => .error e
         | .ok st3 => visitDListN cfg n args st3)) := by
  constructor
  · intro cfg n ps body attrs pvals rval hprim hlen hnotfull
    have hA : (c6Store (Expr.fnE ps body attrs) pvals rval).shapeAt
        (pvals.length + 1) =
        DShape.higher (List.range pvals.length) pvals.length := by
      simpa [c6Store, Store.shapeAt] using
        getD_append_len (pvals.map leafShape ++ [leafShape rval])
          (DShape.higher (List.range pvals.length) pvals.length) []
    have hfindA : (c6Store (Expr.fnE ps body attrs) pvals rval).find
        (pvals.length + 1) = pvals.length + 1 :=
      find_of_not_link _ _ (fun t => by rw [hA]; simp)
    have hdom : domainFor (Expr.fnE ps body attrs)
        (c6Store (Expr.fnE ps body attrs) pvals rval) =
        (pvals.length + 1,
         c6Store (Expr.fnE ps body attrs) pvals rval) := by
      simp [domainFor, lookupDom, c6Store]
    have harity : arityOf (c6Store (Expr.fnE ps body attrs) pvals rval)
        (pvals.length + 1) = some pvals.length := by
      simp [arityOf, hfindA, hA]
    have hrd : setRDTP cfg cfg.defaultScope
        (c6Store (Expr.fnE ps body attrs) pvals rval)
        (pvals.length + 1) =
        .ok ⟨defaultedFnShapes cfg pvals rval,
             [(Expr.fnE ps body attrs, pvals.length + 1)], []⟩ := by
      simpa [c6Store, defaultedFnShapes, fixedResult] using
        setRDTP_leaves cfg cfg.defaultScope pvals rval
          [(Expr.fnE ps body attrs, pvals.length + 1)] []
    simp only [visitDN, hprim, Bool.false_eq_true, if_false, hdom, harity,
      hlen, hnotfull, hrd]
    simp
  · intro cfg n op args attrs pvals rval hlen hnotfull
    have hA : (c6CallStore (Expr.callE op args attrs) pvals rval).shapeAt
        (pvals.length + 1) =
        DShape.higher (List.range pvals.length) pvals.length := by
      simpa [c6CallStore, Store.shapeAt] using
        getD_append_len (pvals.map leafShape ++ [leafShape rval])
          (DShape.higher (List.range pvals.length) pvals.length) []
    have hfindA : (c6CallStore (Expr.callE op args attrs) pvals rval).find
        (pvals.length + 1) = pvals.length + 1 :=
      find_of_not_link _ _ (fun t => by rw [hA]; simp)
    have hdomc : domainForCallee cfg (Expr.callE op args attrs)
        (c6CallStore (Expr.callE op args attrs) pvals rval) =
        .ok (pvals.length + 1,
             c6CallStore (Expr.callE op args attrs) pvals rval) := by
      simp [domainForCallee, lookupDom, c6CallStore]
    have harity : arityOf (c6CallStore (Expr.callE op args attrs) pvals rval)
        (pvals.length + 1) = some pvals.length := by
      simp [arityOf, hfindA, hA]
    have hrd : setRDTP cfg cfg.defaultScope
        (c6CallStore (Expr.callE op args attrs) pvals rval)
        (pvals.length + 1) =
        .ok ⟨defaultedFnShapes cfg pvals rval, [],
             [(Expr.callE op args attrs, pvals.length + 1)]⟩ := by
      simpa [c6CallStore, defaultedFnShapes, fixedResult] using
        setRDTP_leaves cfg cfg.defaultScope pvals rval []
          [(Expr.callE op args attrs, pvals.length + 1)]
    simp only [visitDN, hdomc, harity, hlen, hnotfull, hrd]
    simp

/-- C6 (witness): a one-parameter function with a variable body, and a
primitive call with one variable argument, both with all leaves free,
under the identity-canonicalization config with default scope 0. -/
theorem c6_defaulter_result_then_params_witness :
    (attrs0.prim = false ∧
      ([5] : List Nat).length = ([none] : List (Option Nat)).length ∧
      isFully (c6Store (.fnE [5] (.var 5) attrs0) [none] none) 2 = false ∧
      visitDN cfg0 4 (.fnE [5] (.var 5) attrs0)
          (c6Store (.fnE [5] (.var 5) attrs0) [none] none) =
        visitDN cfg0 3 (.var 5)
          ⟨defaultedFnShapes cfg0 [none] none,
           [(.fnE [5] (.var 5) attrs0, 2)], []⟩) ∧
    ((ExprList.cons (.var 3) .nil).length =
        ([none] : List (Option Nat)).length ∧
      isFully (c6CallStore
          (.callE (.opRef (.primOp 0)) (.cons (.var 3) .nil) .noAttrs)
          [none] none) 2 = false ∧
      visitDN cfg0 4
          (.callE (.opRef (.primOp 0)) (.cons (.var 3) .nil) .noAttrs)
          (c6CallStore
            (.callE (.opRef (.primOp 0)) (.cons (.var 3) .nil) .noAttrs)
            [none] none) =
        (match visitDN cfg0 3 (.opRef (.primOp 0))
            ⟨defaultedFnShapes cfg0 [none] none, [],
             [(.callE (.opRef (.primOp 0)) (.cons (.var 3) .nil) .noAttrs,
               2)]⟩ with
         | .error e => .error e
         | .ok st3 => visitDListN cfg0 3 (.cons (.var 3) .nil) st3)) :=
  ⟨⟨rfl, rfl, by decide,
    c6_defaulter_result_then_params.1 cfg0 3 [5] (.var 5) attrs0 [none] none
      rfl rfl (by decide)⟩,
   ⟨rfl, by decide,
    c6_defaulter_result_then_params.2 cfg0 3 (.opRef (.primOp 0))
      (.cons (.var 3) .nil) .noAttrs [none] none rfl (by decide)⟩⟩

/-- C2 (amended): VisitChild returns a primitive operator or ADT
constructor unchanged; any other child is rewritten recursively and
wrapped by childWrap, whose insertions go through MaybeOnDevice: when
the child scope differs from the expected scope the device_copy
argument is MaybeOnDevice(child', child_scope, fixed), and when the
expected scope differs from the lexical scope the outer wrapper is
MaybeOnDevice(result, expected_scope, fixed); MaybeOnDevice leaves
variables, global variables, operators and constructors bare and wraps
everything else in an "on_device" annotation. -/
theorem c2_amended :
    (∀ (cfg : Config) (n lexi expected childScope : Nat) (child : Expr)
       (st : Store) (out : Expr × Store),
      visitChildN cfg (n + 1) lexi expected childScope child st = .ok out →
      (isOpOrCtor child = true ∧ out = (child, st)) ∨
      (isOpOrCtor child = false ∧ ∃ r, captureN cfg n child st = .ok r ∧
        out = (childWrap lexi expected childScope r.1, r.2))) ∧
    (∀ (e : Expr) (s : Nat) (fx : Bool),
      (isWrapExempt e = true → maybeOnDevice e s fx = e) ∧
      (isWrapExempt e = false →
        maybeOnDevice e s fx = Expr.onDev e s fx)) := by
  constructor
  · intro cfg n lexi expected childScope child st out h
    cases child
    case opRef o =>
      simp only [visitChildN] at h
      injection h with h2
      exact Or.inl ⟨rfl, h2.symm⟩
    case ctorRef c =>
      simp only [visitChildN] at h
      injection h with h2
      exact Or.inl ⟨rfl, h2.symm⟩
    all_goals
      refine Or.inr ⟨rfl, ?_⟩
    all_goals
      simp only [visitChildN] at h
    all_goals
      split at h
    all_goals
      try exact Except.noConfusion h
    all_goals
      rename_i r heq
    all_goals
      injection h with h2
    all_goals
      exact ⟨r, heq, h2.symm⟩
  · intro e s fx
    refine ⟨?_, ?_⟩ <;> intro hw <;>
      cases e <;> simp_all [isWrapExempt, maybeOnDevice, Expr.onDev]

/-- C2 (witness): the variable child at child scope 1 against expected
and lexical scope 0 takes the non-exempt branch (the device_copy
argument stays a bare variable), and MaybeOnDevice wraps a constant. -/
theorem c2_amended_witness :
    ((isOpOrCtor (.var 7) = true ∧
        ((Expr.devCopy (.var 7) 1 0, Store.empty) : Expr × Store) =
          (.var 7, Store.empty)) ∨
      (isOpOrCtor (.var 7) = false ∧
        ∃ r, captureN cfg0 11 (.var 7) Store.empty = .ok r ∧
          ((Expr.devCopy (.var 7) 1 0, Store.empty) : Expr × Store) =
            (childWrap 0 0 1 r.1, r.2))) ∧
    maybeOnDevice (.const 3) 1 true = Expr.onDev (.const 3) 1 true :=
  ⟨c2_amended.1 cfg0 11 0 0 1 (.var 7) Store.empty
      (Expr.devCopy (.var 7) 1 0, Store.empty) (by decide),
   (c2_amended.2 (.const 3) 1 true).2 rfl⟩

/-- goodFuncs looks through an "on_device" wrapper. -/
theorem goodFuncsB_onDev (e : Expr) (s : Nat) (fx : Bool) :
    goodFuncsB (Expr.onDev e s fx) = goodFuncsB e := by
  simp [Expr.onDev, goodFuncsB, goodFuncsList]

/-- goodFuncs looks through a "device_copy" wrapper. -/
theorem goodFuncsB_devCopy (e : Expr) (src dst : Nat) :
    goodFuncsB (Expr.devCopy e src dst) = goodFuncsB e := by
  simp [Expr.devCopy, goodFuncsB, goodFuncsList]

/-- goodFuncs looks through MaybeOnDevice. -/
theorem goodFuncsB_maybeOnDevice (e : Expr) (s : Nat) (fx : Bool) :
    goodFuncsB (maybeOnDevice e s fx) = goodFuncsB e := by
  cases e <;> simp [maybeOnDevice, goodFuncsB_onDev]

/-- paramScopeList returns one scope per parameter domain. -/
theorem paramScopeList_length (st : Store) :
    ∀ (pds ss : List Nat), paramScopeList st pds = .ok ss →
      ss.length = pds.length := by
  intro pds
  induction pds with
  | nil =>
      intro ss h
      simp only [paramScopeList] at h
      cases h
      rfl
  | cons pd pds ih =>
      intro ss h
      simp only [paramScopeList] at h
      split at h
      · exact Except.noConfusion h
      · split at h
        · exact Except.noConfusion h
        · injection h with h2
          subst h2
          rename_i ss1 heq
          simp [ih ss1 heq]

/-- Structural goodness of the Capturer: any successful rewrite of an
expression (or child, tuple-field list, argument list or clause list)
produces only functions that are primitive or carry both scope
attributes with one parameter scope per parameter. -/
theorem goodFuncs_capture :
    ∀ n : Nat,
      (∀ (cfg : Config) (e : Expr) (st : Store) (r : Expr × Store),
        captureN cfg n e st = .ok r → goodFuncsB r.1 = true) ∧
      (∀ (cfg : Config) (l x c : Nat) (e : Expr) (st : Store) (r : Expr × Store),
        visitChildN cfg n l x c e st = .ok r → goodFuncsB r.1 = true) ∧
      (∀ (cfg : Config) (p : Nat) (fs : ExprList) (st : Store)
         (r : ExprList × Store),
        captureFieldsN cfg n p fs st = .ok r → goodFuncsList r.1 = true) ∧
      (∀ (cfg : Config) (l : Nat) (pds : List Nat) (as1 : ExprList) (st : Store)
         (r : ExprList × Store),
        captureArgsN cfg n l pds as1 st = .ok r → goodFuncsList r.1 = true) ∧
      (∀ (cfg : Config) (p : Nat) (cls : Clauses) (st : Store)
         (r : Clauses × Store),
        captureClausesN cfg n p cls st = .ok r → goodFuncsClauses r.1 = true) := by
  intro n
  induction n with
  | zero =>
      refine ⟨?_, ?_, ?_, ?_, ?_⟩
      · intro cfg e st r h; simp [captureN] at h
      · intro cfg l x c e st r h; simp [visitChildN] at h
      · intro cfg p fs st r h; simp [captureFieldsN] at h
      · intro cfg l pds as1 st r h; simp [captureArgsN] at h
      · intro cfg p cls st r h; simp [captureClausesN] at h
  | succ n ih =>
      obtain ⟨ihC, ihV, ihF, ihA, ihCl⟩ := ih
      refine ⟨?_, ?_, ?_, ?_, ?_⟩
      · intro cfg e st r h
        cases e
        case fnE ps body attrs =>
          simp only [captureN] at h
          by_cases hp : attrs.prim = true
          · rw [if_pos hp] at h
            injection h with h2
            subst h2
            simp [goodFuncsB, hp]
          · rw [if_neg hp] at h
            cases hrs : resultScope (domainFor (.fnE ps body attrs) st).2
                (domainFor (.fnE ps body attrs) st).1 with
            | error e1 => simp only [hrs] at h; exact Except.noConfusion h
            | ok rs =>
              simp only [hrs] at h
              cases hps : funcParams (domainFor (.fnE ps body attrs) st).2
                  (domainFor (.fnE ps body attrs) st).1 with
              | error e1 => simp only [hps] at h; exact Except.noConfusion h
              | ok pds =>
                simp only [hps] at h
                by_cases hlen : pds.length = ps.length
                · rw [if_pos hlen] at h
                  cases hpsc : paramScopeList
                      (domainFor (.fnE ps body attrs) st).2 pds with
                  | error e1 => simp only [hpsc] at h; exact Except.noConfusion h
                  | ok pscopes =>
                    simp only [hpsc] at h
                    cases hcs : getSEScope
                        (domainFor (.fnE ps body attrs) st).2 body with
                    | error e1 => simp only [hcs] at h; exact Except.noConfusion h
                    | ok cs =>
                      simp only [hcs] at h
                      cases hvb : visitChildN cfg n rs rs cs body
                          (domainFor (.fnE ps body attrs) st).2 with
                      | error e1 => simp only [hvb] at h; exact Except.noConfusion h
                      | ok outb =>
                        simp only [hvb] at h
                        injection h with h2
                        subst h2
                        have hl := paramScopeList_length _ _ _ hpsc
                        simp [goodFuncsB, hp, hasScopeAttrs, hl, hlen,
                          ihV _ _ _ _ _ _ _ hvb]
                · rw [if_neg hlen] at h
                  exact Except.noConfusion h
        case callE op args cattrs =>
          cases op
          case opRef o =>
            cases o
            case onDeviceOp =>
              cases args
              case nil =>
                simp only [captureN] at h
                repeat' split at h
                all_goals
                  first
                  | contradiction
                  | exact Except.noConfusion h
                  | exact ihC _ _ _ _ h
                  | exact ihV _ _ _ _ _ _ _ h
                  | (injection h with h2; subst h2;
                     simp [goodFuncsB, goodFuncsList, goodFuncsClauses] <;>
                       and_intros <;>
                       first
                       | rfl
                       | exact ihC _ _ _ _ (by assumption)
                       | exact ihV _ _ _ _ _ _ _ (by assumption)
                       | exact ihF _ _ _ _ _ (by assumption)
                       | exact ihA _ _ _ _ _ _ (by assumption)
                       | exact ihCl _ _ _ _ _ (by assumption))
              case cons b rest =>
                cases rest
                case nil =>
                  cases cattrs
                  case noAttrs =>
                    simp only [captureN] at h
                    repeat' split at h
                    all_goals
                      first
                      | contradiction
                      | exact Except.noConfusion h
                      | exact ihC _ _ _ _ h
                      | exact ihV _ _ _ _ _ _ _ h
                      | (injection h with h2; subst h2;
                         simp [goodFuncsB, goodFuncsList, goodFuncsClauses] <;>
                           and_intros <;>
                           first
                           | rfl
                           | exact ihC _ _ _ _ (by assumption)
                           | exact ihV _ _ _ _ _ _ _ (by assumption)
                           | exact ihF _ _ _ _ _ (by assumption)
                           | exact ihA _ _ _ _ _ _ (by assumption)
                           | exact ihCl _ _ _ _ _ (by assumption))
                  case deviceCopyAttrs src dst =>
                    simp only [captureN] at h
                    repeat' split at h
                    all_goals
                      first
                      | contradiction
                      | exact Except.noConfusion h
                      | exact ihC _ _ _ _ h
                      | exact ihV _ _ _ _ _ _ _ h
                      | (injection h with h2; subst h2;
                         simp [goodFuncsB, goodFuncsList, goodFuncsClauses] <;>
                           and_intros <;>
                           first
                           | rfl
                           | exact ihC _ _ _ _ (by assumption)
                           | exact ihV _ _ _ _ _ _ _ (by assumption)
                           | exact ihF _ _ _ _ _ (by assumption)
                           | exact ihA _ _ _ _ _ _ (by assumption)
                           | exact ihCl _ _ _ _ _ (by assumption))
                  case onDeviceAttrs s fx =>
                    simp only [captureN] at h
                    split at h
                    · exact Except.noConfusion h
                    · exact ihC _ _ _ _ h
                case cons c rest2 =>
                  simp only [captureN] at h
                  repeat' split at h
                  all_goals
                    first
                    | contradiction
                    | exact Except.noConfusion h
                    | exact ihC _ _ _ _ h
                    | exact ihV _ _ _ _ _ _ _ h
                    | (injection h with h2; subst h2;
                       simp [goodFuncsB, goodFuncsList, goodFuncsClauses] <;>
                         and_intros <;>
                         first
                         | rfl
                         | exact ihC _ _ _ _ (by assumption)
                         | exact ihV _ _ _ _ _ _ _ (by assumption)
                         | exact ihF _ _ _ _ _ (by assumption)
                         | exact ihA _ _ _ _ _ _ (by assumption)
                         | exact ihCl _ _ _ _ _ (by assumption))
            case deviceCopyOp =>
              cases args
              case nil =>
                simp only [captureN] at h
                repeat' split at h
                all_goals
                  first
                  | contradiction
                  | exact Except.noConfusion h
                  | exact ihC _ _ _ _ h
                  | exact ihV _ _ _ _ _ _ _ h
                  | (injection h with h2; subst h2;
                     simp [goodFuncsB, goodFuncsList, goodFuncsClauses] <;>
                       and_intros <;>
                       first
                       | rfl
                       | exact ihC _ _ _ _ (by assumption)
                       | exact ihV _ _ _ _ _ _ _ (by assumption)
                       | exact ihF _ _ _ _ _ (by assumption)
                       | exact ihA _ _ _ _ _ _ (by assumption)
                       | exact ihCl _ _ _ _ _ (by assumption))
              case cons b rest =>
                cases rest
                case nil =>
                  cases cattrs
                  case noAttrs =>
                    simp only [captureN] at h
                    repeat' split at h
                    all_goals
                      first
                      | contradiction
                      | exact Except.noConfusion h
                      | exact ihC _ _ _ _ h
                      | exact ihV _ _ _ _ _ _ _ h
                      | (injection h with h2; subst h2;
                         simp [goodFuncsB, goodFuncsList, goodFuncsClauses] <;>
                           and_intros <;>
                           first
                           | rfl
                           | exact ihC _ _ _ _ (by assumption)
                           | exact ihV _ _ _ _ _ _ _ (by assumption)
                           | exact ihF _ _ _ _ _ (by assumption)
                           | exact ihA _ _ _ _ _ _ (by assumption)
                           | exact ihCl _ _ _ _ _ (by assumption))
                  case onDeviceAttrs s fx =>
                    simp only [captureN] at h
                    repeat' split at h
                    all_goals
                      first
                      | contradiction
                      | exact Except.noConfusion h
                      | exact ihC _ _ _ _ h
                      | exact ihV _ _ _ _ _ _ _ h
                      | (injection h with h2; subst h2;
                         simp [goodFuncsB, goodFuncsList, goodFuncsClauses] <;>
                           and_intros <;>
                           first
                           | rfl
                           | exact ihC _ _ _ _ (by assumption)
                           | exact ihV _ _ _ _ _ _ _ (by assumption)
                           | exact ihF _ _ _ _ _ (by assumption)
                           | exact ihA _ _ _ _ _ _ (by assumption)
                           | exact ihCl _ _ _ _ _ (by assumption))
                  case deviceCopyAttrs src dst =>
                    simp only [captureN] at h
                    repeat' split at h
                    all_goals
                      first
                      | exact Except.noConfusion h
                      | exact ihC _ _ _ _ h
                      | exact ihV _ _ _ _ _ _ _ h
                case cons c rest2 =>
                  simp only [captureN] at h
                  repeat' split at h
                  all_goals
                    first
                    | contradiction
                    | exact Except.noConfusion h
                    | exact ihC _ _ _ _ h
                    | exact ihV _ _ _ _ _ _ _ h
                    | (injection h with h2; subst h2;
                       simp [goodFuncsB, goodFuncsList, goodFuncsClauses] <;>
                         and_intros <;>
                         first
                         | rfl
                         | exact ihC _ _ _ _ (by assumption)
                         | exact ihV _ _ _ _ _ _ _ (by assumption)
                         | exact ihF _ _ _ _ _ (by assumption)
                         | exact ihA _ _ _ _ _ _ (by assumption)
                         | exact ihCl _ _ _ _ _ (by assumption))
            case primOp k =>
              simp only [captureN] at h
              repeat' split at h
              all_goals
                first
                | contradiction
                | exact Except.noConfusion h
                | exact ihC _ _ _ _ h
                | exact ihV _ _ _ _ _ _ _ h
                | (injection h with h2; subst h2;
                   simp [goodFuncsB, goodFuncsList, goodFuncsClauses] <;>
                     and_intros <;>
                     first
                     | rfl
                     | exact ihC _ _ _ _ (by assumption)
                     | exact ihV _ _ _ _ _ _ _ (by assumption)
                     | exact ihF _ _ _ _ _ (by assumption)
                     | exact ihA _ _ _ _ _ _ (by assumption)
                     | exact ihCl _ _ _ _ _ (by assumption))
          all_goals
            simp only [captureN] at h
            repeat' split at h
            all_goals
              first
              | contradiction
              | exact Except.noConfusion h
              | exact ihC _ _ _ _ h
              | exact ihV _ _ _ _ _ _ _ h
              | (injection h with h2; subst h2;
                 simp [goodFuncsB, goodFuncsList, goodFuncsClauses] <;>
                   and_intros <;>
                   first
                   | rfl
                   | exact ihC _ _ _ _ (by assumption)
                   | exact ihV _ _ _ _ _ _ _ (by assumption)
                   | exact ihF _ _ _ _ _ (by assumption)
                   | exact ihA _ _ _ _ _ _ (by assumption)
                   | exact ihCl _ _ _ _ _ (by assumption))
        all_goals simp only [captureN] at h
        all_goals repeat' split at h
        all_goals
          first
          | contradiction
          | exact Except.noConfusion h
          | exact ihC _ _ _ _ h
          | exact ihV _ _ _ _ _ _ _ h
          | (injection h with h2; subst h2;
             simp [goodFuncsB, goodFuncsList, goodFuncsClauses] <;>
               and_intros <;>
               first
               | rfl
               | exact ihC _ _ _ _ (by assumption)
               | exact ihV _ _ _ _ _ _ _ (by assumption)
               | exact ihF _ _ _ _ _ (by assumption)
               | exact ihA _ _ _ _ _ _ (by assumption)
               | exact ihCl _ _ _ _ _ (by assumption))
      · intro cfg l x c e st r h
        cases e
        all_goals simp only [visitChildN] at h
        all_goals repeat' split at h
        all_goals
          first
          | contradiction
          | exact Except.noConfusion h
          | (injection h with h2; subst h2;
             simp [goodFuncsB_maybeOnDevice, goodFuncsB_devCopy, goodFuncsB,
               goodFuncsList] <;>
               first
               | rfl
               | exact ihC _ _ _ _ (by assumption))
      · intro cfg p fs st r h
        cases fs
        all_goals simp only [captureFieldsN] at h
        all_goals repeat' split at h
        all_goals
          first
          | contradiction
          | exact Except.noConfusion h
          | (injection h with h2; subst h2;
             simp [goodFuncsList] <;>
               and_intros <;>
               first
               | rfl
               | exact ihV _ _ _ _ _ _ _ (by assumption)
               | exact ihF _ _ _ _ _ (by assumption))
      · intro cfg l pds as1 st r h
        cases as1 <;> cases pds
        all_goals simp only [captureArgsN] at h
        all_goals repeat' split at h
        all_goals
          first
          | contradiction
          | exact Except.noConfusion h
          | (injection h with h2; subst h2;
             simp [goodFuncsList] <;>
               and_intros <;>
               first
               | rfl
               | exact ihV _ _ _ _ _ _ _ (by assumption)
               | exact ihA _ _ _ _ _ _ (by assumption))
      · intro cfg p cls st r h
        cases cls
        all_goals simp only [captureClausesN] at h
        all_goals repeat' split at h
        all_goals
          first
          | contradiction
          | exact Except.noConfusion h
          | (injection h with h2; subst h2;
             simp [goodFuncsClauses] <;>
               and_intros <;>
               first
               | rfl
               | exact ihV _ _ _ _ _ _ _ (by assumption)
               | exact ihCl _ _ _ _ _ (by assumption))

/-- Phase 3 over the function list produces only good functions. -/
theorem goodFuncs_captureFns (cfg : Config) :
    ∀ (fns : List (Nat × Expr)) (st : Store)
      (out : List (Nat × Expr) × Store),
      captureFns cfg fns st = .ok out →
      out.1.all (fun gf => goodFuncsB gf.2) = true := by
  intro fns
  induction fns with
  | nil =>
      intro st out h
      simp only [captureFns] at h
      cases h
      rfl
  | cons gf rest ih =>
      intro st out h
      obtain ⟨g, fn⟩ := gf
      simp only [captureFns] at h
      cases hc : captureE cfg fn st with
      | error e => simp only [hc] at h; exact absurd h (by simp)
      | ok o =>
          simp only [hc] at h
          cases hr : captureFns cfg rest o.2 with
          | error e => simp only [hr] at h; exact absurd h (by simp)
          | ok outs =>
              simp only [hr] at h
              cases h
              have h1 : goodFuncsB o.1 = true :=
                (goodFuncs_capture (exprFuel fn)).1 cfg fn st o hc
              simp [h1, ih o.2 outs hr]

/-- Phase 3 over a module produces only good functions. -/
theorem goodFuncs_captureModule (cfg : Config) (m : Module) (st : Store)
    (out : Module × Store) (h : captureModule cfg m st = .ok out) :
    goodFuncsModule out.1 = true := by
  simp only [captureModule] at h
  cases hf : captureFns cfg m.functions st with
  | error e => simp only [hf] at h; exact absurd h (by simp)
  | ok o =>
      simp only [hf] at h
      cases h
      simpa [goodFuncsModule] using goodFuncs_captureFns cfg m.functions st o hf

/-- C1 (amended): in every module the planner outputs, every function
that is not marked primitive carries a "param_se_scopes" attribute
with one scope per parameter and a "result_se_scope" attribute;
functions marked primitive pass through the Capturer untouched and
carry no such attributes. -/
theorem c1_amended :
    ∀ (cfg : Config) (m out : Module),
      planDevices cfg m = .ok out → goodFuncsModule out = true := by
  intro cfg m out h
  simp only [planDevices] at h
  repeat' split at h
  all_goals
    first
    | exact Except.noConfusion h
    | (injection h with h2; subst h2;
       exact goodFuncs_captureModule _ _ _ _ (by assumption))

/-- C1 (amended, witness): the planner run on m3 produces only good
functions. -/
theorem c1_amended_witness : goodFuncsModule m3Out = true :=
  c1_amended cfg0 m3 m3Out plan_m3_eq

/-- A MaybeOnDevice wrap at the copy source scope always satisfies the
device_copy argument check. -/
theorem copyArgOK_maybeOnDevice (s : Nat) (e : Expr) :
    copyArgOK s (maybeOnDevice e s true) = true := by
  cases e <;>
    simp [maybeOnDevice, copyArgOK, Expr.onDev, Expr.onDeviceProps]

/-- C3 (amended): every device_copy the Capturer inserts goes from the
child scope to the expected scope, which are distinct also after
canonicalization (VisitChild receives already-canonical scopes and
inserts a copy only when they differ), and its argument, when it is an
"on_device" annotation, carries the copy's source scope; on the
concrete m3 output all device_copies satisfy these checks even though
the lexical-scope reading of the claim fails there. -/
theorem c3_amended :
    (∀ (cfg : Config) (n l x c : Nat) (e : Expr) (st : Store)
       (r : Expr × Store),
      cfg.canon x = x → cfg.canon c = c → isOpOrCtor e = false → c ≠ x →
      visitChildN cfg (n + 1) l x c e st = .ok r →
      ∃ b, r.1 = (if x ≠ l then maybeOnDevice (Expr.devCopy b c x) x true
                  else Expr.devCopy b c x) ∧
        cfg.canon c ≠ cfg.canon x ∧ copyArgOK c b = true) ∧
    goodCopiesModule cfg0 m3Out = true := by
  constructor
  · intro cfg n l x c e st r hx hc hop hne h
    cases e
    case opRef o => simp [isOpOrCtor] at hop
    case ctorRef k => simp [isOpOrCtor] at hop
    all_goals simp only [visitChildN] at h
    all_goals
      split at h
    all_goals
      first
      | exact Except.noConfusion h
      | (rename_i out1 heq; injection h with h2; subst h2;
         refine ⟨maybeOnDevice out1.1 c true, ?_, ?_,
           copyArgOK_maybeOnDevice _ _⟩
         · simp [hne]
         · rw [hx, hc]; exact hne)
  · decide

/-- C3 (amended, witness): the copy inserted for a variable child at
scope 1 against expected scope 0. -/
theorem c3_amended_witness :
    ∃ b, ((Expr.devCopy (.var 7) 1 0, Store.empty) : Expr × Store).1 =
        (if (0 : Nat) ≠ 0 then maybeOnDevice (Expr.devCopy b 1 0) 0 true
         else Expr.devCopy b 1 0) ∧
      cfg0.canon 1 ≠ cfg0.canon 0 ∧ copyArgOK 1 b = true :=
  c3_amended.1 cfg0 11 0 0 1 (.var 7) Store.empty
    (Expr.devCopy (.var 7) 1 0, Store.empty) rfl rfl rfl (by decide)
    (by decide)
